import Mathlib

/-!
The Layer III bit reservoir of `src/reservoir.c`.

A shallow embedding of the four entry points of `reservoir.c`
(`ResvFrameBegin`, `ResvMaxBits`, `ResvAdjust`, `ResvFrameEnd`) and of the two
file-scope variables they share, followed by the properties proved about them.

Conventions of the embedding.

* A C `int` is a mathematical `Int`.  All quantities are bit counts of one audio
  frame; signed overflow is undefined behaviour in C and is outside the model.
* C's `/` and `%` on `int` truncate towards zero: they are `Int.tdiv` and
  `Int.tmod`, not Lean's `/` and `%`.
* `x & 1` on a two's complement `int` is `x % 2` (Lean's `%`, which is 0 or 1).
* The two statics `ResvSize` and `ResvMax` are threaded through every function
  as a `ResvState`.
* `assert` is modelled by the `Outcome` of the call: either the function
  returned, or the assertion fired with the statics as they were at that point.
* The `double` expression `*pe * 3.1 - mean_bits`, converted to `int` on
  assignment to `more_bits`, is not computed in the model: `ResvMaxBits` takes
  the converted value as its argument `more_bits`.
-/

namespace Reservoir

/-- The statics `ResvSize` and `ResvMax` of reservoir.c (lines 36-37), in bits. -/
structure ResvState where
  ResvSize : Int
  ResvMax : Int
deriving DecidableEq, Repr

/-- The initial value of the statics: both are initialised to 0. -/
def ResvState.init : ResvState := ⟨0, 0⟩

/-- Modelled from the spec: the declaration of `layer` (a header that is not
among the sources).  Only `version` is read by reservoir.c; the value 1 is
MPEG-1 (V1), every other value takes the MPEG-2 (V2) branch. -/
structure layer where
  version : Int
deriving DecidableEq, Repr

/-- Modelled from the spec: the declaration of `frame_params` (a header that is
not among the sources).  reservoir.c reads `header` and `stereo`, the channel
count, an `int` that is 1 or 2. -/
structure frame_params where
  header : layer
  stereo : Int
deriving DecidableEq, Repr

/-- Modelled from the spec: the declaration of `gr_info` (l3side.h, not among
the sources).  Only `part2_3_length`, the coded length of the granule in bits,
is used by reservoir.c; it is taken to be an integer, as the spec has it. -/
structure gr_info where
  part2_3_length : Int
deriving DecidableEq, Repr

/-- Modelled from the spec: the declaration of `III_side_info_t` (l3side.h, not
among the sources).  `gr g c` is `l3_side->gr[g].ch[c]`; the C table has the
slots `g < 2`, `c < 2`. -/
structure III_side_info_t where
  main_data_begin : Int
  resvDrain : Int
  gr : Nat → Nat → gr_info

/-- How a call that contains an `assert` ends: it returns with the statics `s`,
or the assertion fires (the process aborts) with the statics `s`. -/
inductive Outcome where
  | returned (s : ResvState)
  | aborted (s : ResvState)
deriving DecidableEq, Repr

/-- The value of `mode_gr`: granules per frame (lines 53-62 and 165). -/
def mode_gr (version : Int) : Int := if version = 1 then 2 else 1

/-- The value of `resvLimit` chosen in ResvFrameBegin (lines 53-62). -/
def resvLimit (version : Int) : Int := if version = 1 then 4088 else 2040

/-- ResvFrameBegin (lines 45-93). -/
def ResvFrameBegin (fr_ps : frame_params) (l3_side : III_side_info_t)
    (mean_bits frameLength : Int) (s : ResvState) : Outcome :=
  let info := fr_ps.header
  let mode_gr := mode_gr info.version
  let resvLimit := resvLimit info.version
  let expectedResvSize := l3_side.main_data_begin * 8
  -- assert( expectedResvSize == ResvSize );
  if expectedResvSize = s.ResvSize then
    let _fullFrameBits := mean_bits * mode_gr
    let ResvMax := if frameLength > 7680 then 0 else 7680 - frameLength
    let ResvMax := if ResvMax > resvLimit then resvLimit else ResvMax
    Outcome.returned ⟨s.ResvSize, ResvMax⟩
  else
    Outcome.aborted s

/-- The value of `add_bits` when ResvMaxBits adds it to `max_bits` (lines
116-128); `more_bits` is the `int` assigned on line 115. -/
def ResvMaxBits.add_bits (more_bits : Int) (s : ResvState) : Int :=
  let add_bits : Int := 0
  let add_bits :=
    if more_bits > 100 then
      let frac := (s.ResvSize * 6).tdiv 10
      if frac < more_bits then frac else more_bits
    else add_bits
  let over_bits := s.ResvSize - (s.ResvMax * 8).tdiv 10 - add_bits
  if over_bits > 0 then add_bits + over_bits else add_bits

/-- ResvMaxBits (lines 101-134).  `more_bits` stands for the value that line 115
assigns, the conversion to `int` of `*pe * 3.1 - mean_bits`. -/
def ResvMaxBits (fr_ps : frame_params) (more_bits : Int) (mean_bits : Int)
    (s : ResvState) : Int :=
  let mean_bits := mean_bits.tdiv fr_ps.stereo
  let max_bits := mean_bits
  let max_bits := if max_bits > 4095 then 4095 else max_bits
  if s.ResvMax = 0 then max_bits
  else
    let add_bits := ResvMaxBits.add_bits more_bits s
    let max_bits := max_bits + add_bits
    let max_bits := if max_bits > 4095 then 4095 else max_bits
    max_bits

/-- ResvAdjust (lines 141-145). -/
def ResvAdjust (fr_ps : frame_params) (gi : gr_info) (mean_bits : Int)
    (s : ResvState) : ResvState :=
  ⟨s.ResvSize + (mean_bits.tdiv fr_ps.stereo - gi.part2_3_length), s.ResvMax⟩

/-- The statics' part of ResvFrameEnd (lines 168-186): the new `ResvSize` and
the value of `stuffingBits` when line 188 tests it. -/
def ResvFrameEnd.clamp (stereo mean_bits : Int) (s : ResvState) : Int × Int :=
  let ancillary_pad : Int := 0
  -- if ( (stereo == 2) && (mean_bits & 1) ) ResvSize += 1;
  let ResvSize := if stereo = 2 ∧ mean_bits % 2 ≠ 0 then s.ResvSize + 1 else s.ResvSize
  let over_bits := ResvSize - s.ResvMax
  let over_bits := if over_bits < 0 then 0 else over_bits
  let ResvSize := ResvSize - over_bits
  let stuffingBits := over_bits + ancillary_pad
  -- if ( (over_bits = ResvSize % 8) )
  let over_bits := ResvSize.tmod 8
  if over_bits ≠ 0 then (ResvSize - over_bits, stuffingBits + over_bits)
  else (ResvSize, stuffingBits)

/-- The assignment `l3_side->gr[g].ch[c].part2_3_length = v`. -/
def setLength (l3_side : III_side_info_t) (g c : Nat) (v : Int) : III_side_info_t :=
  ⟨l3_side.main_data_begin, l3_side.resvDrain,
    fun i j => if i = g ∧ j = c then ⟨v⟩ else l3_side.gr i j⟩

/-- The inner loop of plan b (lines 203-213), `for (ch = ...; ch < stereo; ch++)`,
with `n` iterations left to run from channel `ch`.  The loop state is the side
info and `stuffingBits`; `break` leaves the loop with the state as it is. -/
def ResvFrameEnd.chLoop (gr : Nat) :
    Nat → Nat → III_side_info_t × Int → III_side_info_t × Int
  | 0, _, st => st
  | n + 1, ch, (l3_side, stuffingBits) =>
    if stuffingBits = 0 then (l3_side, stuffingBits)
    else
      let len := (l3_side.gr gr ch).part2_3_length
      let extraBits := 4095 - len
      let bitsThisGr := if extraBits < stuffingBits then extraBits else stuffingBits
      ResvFrameEnd.chLoop gr n (ch + 1)
        (setLength l3_side gr ch (len + bitsThisGr), stuffingBits - bitsThisGr)

/-- The outer loop of plan b (line 202), `for (gr = ...; gr < mode_gr; gr++)`,
with `n` iterations left to run from granule `gr`; each runs the inner loop
from channel 0 for `stereo` iterations. -/
def ResvFrameEnd.grLoop (stereo : Int) :
    Nat → Nat → III_side_info_t × Int → III_side_info_t × Int
  | 0, _, st => st
  | n + 1, gr, st =>
    ResvFrameEnd.grLoop stereo n (gr + 1) (ResvFrameEnd.chLoop gr stereo.toNat 0 st)

/-- The stuffing part of ResvFrameEnd (lines 188-225) for a given value of
`stuffingBits`. -/
def ResvFrameEnd.stuff (fr_ps : frame_params) (l3_side : III_side_info_t)
    (stuffingBits : Int) : III_side_info_t :=
  if stuffingBits ≠ 0 then
    let len := (l3_side.gr 0 0).part2_3_length
    if len + stuffingBits < 4095 then
      setLength l3_side 0 0 (len + stuffingBits)
    else
      let st := ResvFrameEnd.grLoop fr_ps.stereo (mode_gr fr_ps.header.version).toNat 0
        (l3_side, stuffingBits)
      ⟨st.1.main_data_begin, st.2, st.1.gr⟩
  else l3_side

/-- ResvFrameEnd (lines 155-226): the statics and the side info it leaves. -/
def ResvFrameEnd (fr_ps : frame_params) (l3_side : III_side_info_t) (mean_bits : Int)
    (s : ResvState) : ResvState × III_side_info_t :=
  let r := ResvFrameEnd.clamp fr_ps.stereo mean_bits s
  (⟨r.1, s.ResvMax⟩, ResvFrameEnd.stuff fr_ps l3_side r.2)

/-- The sum of `part2_3_length` over the four slots of the side info table. -/
def sumLengths (l3_side : III_side_info_t) : Int :=
  (l3_side.gr 0 0).part2_3_length + (l3_side.gr 0 1).part2_3_length
    + (l3_side.gr 1 0).part2_3_length + (l3_side.gr 1 1).part2_3_length

/-- A side info table from its four lengths: slot (0,0), (0,1), (1,0), (1,1). -/
def sideInfo (main_data_begin resvDrain a b c d : Int) : III_side_info_t :=
  ⟨main_data_begin, resvDrain, fun g ch =>
    ⟨if g = 0 ∧ ch = 0 then a else if g = 0 ∧ ch = 1 then b
      else if g = 1 ∧ ch = 0 then c else if g = 1 ∧ ch = 1 then d else 0⟩⟩

/-- The parity fix of ResvFrameEnd (lines 170-171): the amount added to
`ResvSize` before the clamp. -/
def parityFix (stereo mean_bits : Int) : Int :=
  if stereo = 2 ∧ mean_bits % 2 ≠ 0 then 1 else 0

/-- A run of ResvAdjust calls, each with its own arguments, in list order. -/
def ResvAdjustAll (calls : List (frame_params × gr_info × Int)) (s : ResvState) :
    ResvState :=
  calls.foldl (fun st a => ResvAdjust a.1 a.2.1 a.2.2 st) s

/-- The stuffing budget of a ResvFrameEnd call in the spec's words: the
occupancy on entry plus the parity fix, minus the occupancy on exit. -/
def stuffingBudget (fr_ps : frame_params) (l3_side : III_side_info_t) (mean_bits : Int)
    (s : ResvState) : Int :=
  s.ResvSize + parityFix fr_ps.stereo mean_bits
    - (ResvFrameEnd fr_ps l3_side mean_bits s).1.ResvSize

/-- The test of line 197: plan a applies to a budget of `stuffingBits`. -/
def planA (l3_side : III_side_info_t) (stuffingBits : Int) : Prop :=
  (l3_side.gr 0 0).part2_3_length + stuffingBits < 4095

instance (l3_side : III_side_info_t) (stuffingBits : Int) :
    Decidable (planA l3_side stuffingBits) := by
  unfold planA; infer_instance

/-- The slots of a frame in the order of plan b: granule outer, channel inner;
`mode_gr` granules of `stereo` channels each. -/
def frameSlots (fr_ps : frame_params) : List (Nat × Nat) :=
  (List.range (mode_gr fr_ps.header.version).toNat).flatMap fun g =>
    (List.range fr_ps.stereo.toNat).map fun c => (g, c)

/-- The lengths of the given slots of a side info table, in list order. -/
def lengthsAt (l3_side : III_side_info_t) (slots : List (Nat × Nat)) : List Int :=
  slots.map fun p => (l3_side.gr p.1 p.2).part2_3_length

/-- Plan b in the spec's words, over the ordered list of slot lengths: each slot
in turn receives `min(4095 - length, remaining budget)`, which is taken off the
remaining budget.  Returns the new lengths and the budget left unplaced. -/
def greedyFill : List Int → Int → List Int × Int
  | [], remaining => ([], remaining)
  | len :: rest, remaining =>
    let give := min (4095 - len) remaining
    let r := greedyFill rest (remaining - give)
    ((len + give) :: r.1, r.2)

/-- The extra allowance of MaxBitsForGranule in the spec's words:
`max(e0, occupancy - (capacity * 8) / 10)` with
`e0 = min(wanted, (occupancy * 6) / 10)` if `wanted > 100` and `e0 = 0`
otherwise (`/` is C division). -/
def extraAllowance (wanted occupancy capacity : Int) : Int :=
  let e0 := if wanted > 100 then min wanted ((occupancy * 6).tdiv 10) else 0
  max e0 (occupancy - (capacity * 8).tdiv 10)

/-- The ResvAdjust calls of one frame: one per slot of the frame, in slot order,
each with the frame's parameters and the slot's coded granule. -/
def frameAdjusts (fr_ps : frame_params) (l3_side : III_side_info_t) (mean_bits : Int) :
    List (frame_params × gr_info × Int) :=
  (frameSlots fr_ps).map fun p => (fr_ps, l3_side.gr p.1 p.2, mean_bits)

/-- The statics that an Outcome carries. -/
def Outcome.state : Outcome → ResvState
  | Outcome.returned s => s
  | Outcome.aborted s => s

/-- One frame as the encoder's loop presents it to the reservoir: the frame
parameters and side info, `mean_bits`, the frame length, and for each granule
slot the `more_bits` given to ResvMaxBits and the granule as coded. -/
structure Frame where
  fr_ps : frame_params
  l3_side : III_side_info_t
  mean_bits : Int
  frameLength : Int
  slots : List (Int × gr_info)

/-- The granule loop of a frame: for each slot ResvMaxBits (which leaves the
statics alone) and then ResvAdjust with the coded granule. -/
def runSlots (fr_ps : frame_params) (mean_bits : Int) (s : ResvState)
    (slots : List (Int × gr_info)) : ResvState :=
  slots.foldl (fun st slot => ResvAdjust fr_ps slot.2 mean_bits st) s

/-- The coder respects its allowance: each slot's `part2_3_length` is at most
what ResvMaxBits returned for it, in the state in which it was called. -/
def slotsRespect (fr_ps : frame_params) (mean_bits : Int) :
    ResvState → List (Int × gr_info) → Prop
  | _, [] => True
  | s, slot :: rest =>
    slot.2.part2_3_length ≤ ResvMaxBits fr_ps slot.1 mean_bits s ∧
      slotsRespect fr_ps mean_bits (ResvAdjust fr_ps slot.2 mean_bits s) rest

/-- One frame: ResvFrameBegin, the granule loop, ResvFrameEnd; aborted when the
assertion of ResvFrameBegin fires. -/
def runFrame (f : Frame) (s : ResvState) : Outcome :=
  match ResvFrameBegin f.fr_ps f.l3_side f.mean_bits f.frameLength s with
  | Outcome.aborted s0 => Outcome.aborted s0
  | Outcome.returned s1 =>
    Outcome.returned
      (ResvFrameEnd f.fr_ps f.l3_side f.mean_bits (runSlots f.fr_ps f.mean_bits s1 f.slots)).1

/-- A frame follows the protocol in state `s`: ResvFrameBegin is called with an
offset equal to the occupancy, and the coder respects its allowances. -/
def frameOk (f : Frame) (s : ResvState) : Prop :=
  f.l3_side.main_data_begin * 8 = s.ResvSize ∧
    slotsRespect f.fr_ps f.mean_bits
      (ResvFrameBegin f.fr_ps f.l3_side f.mean_bits f.frameLength s).state f.slots

/-- Every frame of the sequence follows the protocol, each in the state the
previous one left. -/
def framesOk : List Frame → ResvState → Prop
  | [], _ => True
  | f :: rest, s => frameOk f s ∧ framesOk rest (runFrame f s).state

/-- A sequence of frames: the statics after each ResvFrameEnd, or `none` when
the assertion of some ResvFrameBegin fires. -/
def runFrames : List Frame → ResvState → Option (List ResvState)
  | [], _ => some []
  | f :: rest, s =>
    match runFrame f s with
    | Outcome.aborted _ => none
    | Outcome.returned s1 => (runFrames rest s1).map fun trace => s1 :: trace

/-- A version 1 mono frame of length 6672 with 3000 mean bits, entered with
offset field 0, whose two granules are coded in 2400 bits each. -/
def sampleFrame1 : Frame :=
  ⟨⟨⟨1⟩, 1⟩, sideInfo 0 0 2400 0 2400 0, 3000, 6672, [(0, ⟨2400⟩), (0, ⟨2400⟩)]⟩

/-- A version 1 mono frame of length 6672 with 3000 mean bits, entered with
offset field 126 (1008 bits), whose granules are coded in 3500 bits (with
`more_bits` 500) and 3000 bits. -/
def sampleFrame2 : Frame :=
  ⟨⟨⟨1⟩, 1⟩, sideInfo 126 0 3500 0 3000 0, 3000, 6672, [(500, ⟨3500⟩), (0, ⟨3000⟩)]⟩

/-! ## Arithmetic of C division and remainder -/

theorem tdiv_by_nonneg (x b : Int) (hb : 0 ≤ b) :
    x.tdiv b = if 0 ≤ x then x / b else -((-x) / b) := by
  split
  · next h => exact Int.tdiv_eq_ediv h hb
  · next h =>
    have h1 : (-x).tdiv b = (-x) / b := Int.tdiv_eq_ediv (by omega) hb
    rw [← h1, Int.neg_tdiv, neg_neg]

theorem tmod_eight (x : Int) :
    x.tmod 8 = if 0 ≤ x then x % 8 else -((-x) % 8) := by
  rw [Int.tmod_def, tdiv_by_nonneg x 8 (by decide)]
  split <;> omega

theorem tdiv_one_or_two (x stereo : Int) (h : stereo = 1 ∨ stereo = 2) :
    x.tdiv stereo = if stereo = 1 then x else if 0 ≤ x then x / 2 else -((-x) / 2) := by
  rcases h with h | h
  · subst h; simp
  · subst h; rw [tdiv_by_nonneg x 2 (by decide)]; simp

/-! ## The statics after ResvFrameEnd -/

theorem ResvFrameEnd_ResvMax (fr_ps : frame_params) (l3_side : III_side_info_t)
    (mean_bits : Int) (s : ResvState) :
    (ResvFrameEnd fr_ps l3_side mean_bits s).1.ResvMax = s.ResvMax := rfl

theorem ResvFrameEnd_ResvSize (fr_ps : frame_params) (l3_side : III_side_info_t)
    (mean_bits : Int) (s : ResvState) :
    (ResvFrameEnd fr_ps l3_side mean_bits s).1.ResvSize
      = (ResvFrameEnd.clamp fr_ps.stereo mean_bits s).1 := rfl

/-- The new `ResvSize`: the minimum of the parity-fixed size and `ResvMax`,
less its C remainder modulo 8. -/
theorem clamp_fst (stereo mean_bits : Int) (s : ResvState) :
    (ResvFrameEnd.clamp stereo mean_bits s).1
      = min (s.ResvSize + parityFix stereo mean_bits) s.ResvMax
        - (min (s.ResvSize + parityFix stereo mean_bits) s.ResvMax).tmod 8 := by
  unfold ResvFrameEnd.clamp parityFix
  simp only []
  rw [tmod_eight, tmod_eight]
  split_ifs <;> omega

/-- The stuffing budget is what left `ResvSize`: entry plus parity fix minus exit. -/
theorem clamp_snd (stereo mean_bits : Int) (s : ResvState) :
    (ResvFrameEnd.clamp stereo mean_bits s).2
      = s.ResvSize + parityFix stereo mean_bits - (ResvFrameEnd.clamp stereo mean_bits s).1 := by
  unfold ResvFrameEnd.clamp parityFix
  simp only []
  split_ifs <;> simp <;> omega

theorem ResvAdjustAll_ResvMax (calls : List (frame_params × gr_info × Int)) (s : ResvState) :
    (ResvAdjustAll calls s).ResvMax = s.ResvMax := by
  unfold ResvAdjustAll
  induction calls generalizing s with
  | nil => rfl
  | cons a rest ih => simp only [List.foldl_cons]; rw [ih]; rfl

theorem ResvFrameBegin_returned (fr_ps : frame_params) (l3_side : III_side_info_t)
    (mean_bits frameLength : Int) (s : ResvState)
    (h : l3_side.main_data_begin * 8 = s.ResvSize) :
    ResvFrameBegin fr_ps l3_side mean_bits frameLength s
      = Outcome.returned ⟨s.ResvSize,
          min (resvLimit fr_ps.header.version) (max 0 (7680 - frameLength))⟩ := by
  unfold ResvFrameBegin
  simp only [h, if_true]
  congr 2
  split_ifs <;> omega

theorem ResvFrameBegin_aborted (fr_ps : frame_params) (l3_side : III_side_info_t)
    (mean_bits frameLength : Int) (s : ResvState)
    (h : l3_side.main_data_begin * 8 ≠ s.ResvSize) :
    ResvFrameBegin fr_ps l3_side mean_bits frameLength s = Outcome.aborted s := by
  unfold ResvFrameBegin
  simp only [h, if_false]

/-- With a capacity that is not negative, the size left by the clamp and the
byte alignment does not exceed the capacity. -/
theorem clamp_fst_le (stereo mean_bits : Int) (s : ResvState) (h : 0 ≤ s.ResvMax) :
    (ResvFrameEnd.clamp stereo mean_bits s).1 ≤ s.ResvMax := by
  rw [clamp_fst, tmod_eight]
  split_ifs <;> omega

/-! ## C1: the statics after ResvFrameEnd -/

/-- C1, as stated, fails: ResvFrameEnd has no lower clamp.  From occupancy 0 and
capacity 1000, one ResvAdjust of a granule coded in 616 bits against 600 mean
bits leaves occupancy -16, and ResvFrameEnd returns with occupancy -16, which
is negative. -/
theorem C1_counterexample :
    ResvAdjust ⟨⟨1⟩, 1⟩ ⟨616⟩ 600 ⟨0, 1000⟩ = ⟨-16, 1000⟩ ∧
    (ResvFrameEnd ⟨⟨1⟩, 1⟩ (sideInfo 0 0 616 0 0 0) 600 ⟨-16, 1000⟩).1 = ⟨-16, 1000⟩ ∧
    ¬ (0 ≤ (ResvFrameEnd ⟨⟨1⟩, 1⟩ (sideInfo 0 0 616 0 0 0) 600 ⟨-16, 1000⟩).1.ResvSize) := by
  decide

/-- C1 (amended): after every ResvFrameEnd the occupancy is a multiple of 8
(C remainder 0), whatever the state on entry; and `0 ≤ occupancy ≤ capacity`
holds on exit exactly when, on entry, the capacity is not negative and the
occupancy plus the parity fix is above -8, in particular whenever occupancy
and capacity are both not negative on entry. -/
theorem C1_ResvFrameEnd_invariant (fr_ps : frame_params) (l3_side : III_side_info_t)
    (mean_bits : Int) (s : ResvState) :
    (ResvFrameEnd fr_ps l3_side mean_bits s).1.ResvSize.tmod 8 = 0 ∧
    ((0 ≤ (ResvFrameEnd fr_ps l3_side mean_bits s).1.ResvSize ∧
        (ResvFrameEnd fr_ps l3_side mean_bits s).1.ResvSize
          ≤ (ResvFrameEnd fr_ps l3_side mean_bits s).1.ResvMax) ↔
      (0 ≤ s.ResvMax ∧ -8 < s.ResvSize + parityFix fr_ps.stereo mean_bits)) ∧
    (0 ≤ s.ResvSize → 0 ≤ s.ResvMax →
      0 ≤ (ResvFrameEnd fr_ps l3_side mean_bits s).1.ResvSize ∧
        (ResvFrameEnd fr_ps l3_side mean_bits s).1.ResvSize
          ≤ (ResvFrameEnd fr_ps l3_side mean_bits s).1.ResvMax) := by
  rw [ResvFrameEnd_ResvMax, ResvFrameEnd_ResvSize, clamp_fst]
  have hp : parityFix fr_ps.stereo mean_bits = 0 ∨ parityFix fr_ps.stereo mean_bits = 1 := by
    unfold parityFix; split_ifs <;> simp
  generalize parityFix fr_ps.stereo mean_bits = p at hp ⊢
  rw [tmod_eight (min (s.ResvSize + p) s.ResvMax)]
  refine ⟨?_, ?_, ?_⟩
  · rw [tmod_eight]; split_ifs <;> omega
  · split_ifs <;> omega
  · split_ifs <;> omega

/-- C1 (amended), at a concrete call: stereo, odd mean bits, occupancy 1203 and
capacity 1000 on entry. -/
theorem C1_ResvFrameEnd_invariant_witness :
    (ResvFrameEnd ⟨⟨1⟩, 2⟩ (sideInfo 0 0 0 0 0 0) 601 ⟨1203, 1000⟩).1 = ⟨1000, 1000⟩ ∧
    (0 ≤ (ResvFrameEnd ⟨⟨1⟩, 2⟩ (sideInfo 0 0 0 0 0 0) 601 ⟨1203, 1000⟩).1.ResvSize ∧
      (ResvFrameEnd ⟨⟨1⟩, 2⟩ (sideInfo 0 0 0 0 0 0) 601 ⟨1203, 1000⟩).1.ResvSize
        ≤ (ResvFrameEnd ⟨⟨1⟩, 2⟩ (sideInfo 0 0 0 0 0 0) 601 ⟨1203, 1000⟩).1.ResvMax) :=
  ⟨by decide,
    (C1_ResvFrameEnd_invariant ⟨⟨1⟩, 2⟩ (sideInfo 0 0 0 0 0 0) 601 ⟨1203, 1000⟩).2.2
      (by decide) (by decide)⟩

/-! ## C2, C3: ResvFrameBegin -/

/-- C2: ResvFrameBegin returns if and only if `main_data_begin * 8` equals the
current occupancy; for every other offset the assertion fires, and the statics
are then as they were on entry. -/
theorem C2_ResvFrameBegin_succeeds_iff (fr_ps : frame_params) (l3_side : III_side_info_t)
    (mean_bits frameLength : Int) (s : ResvState) :
    ((∃ s1, ResvFrameBegin fr_ps l3_side mean_bits frameLength s = Outcome.returned s1) ↔
      l3_side.main_data_begin * 8 = s.ResvSize) ∧
    (l3_side.main_data_begin * 8 ≠ s.ResvSize →
      ResvFrameBegin fr_ps l3_side mean_bits frameLength s = Outcome.aborted s) := by
  refine ⟨⟨?_, ?_⟩, ResvFrameBegin_aborted fr_ps l3_side mean_bits frameLength s⟩
  · rintro ⟨s1, h1⟩
    by_contra hne
    rw [ResvFrameBegin_aborted fr_ps l3_side mean_bits frameLength s hne] at h1
    exact Outcome.noConfusion h1
  · intro h
    exact ⟨_, ResvFrameBegin_returned fr_ps l3_side mean_bits frameLength s h⟩

/-- C2 at concrete calls: with occupancy 1000, offset field 125 (1000 bits) is
accepted and offset field 124 fires the assertion with the statics unchanged. -/
theorem C2_ResvFrameBegin_succeeds_iff_witness :
    (∃ s1, ResvFrameBegin ⟨⟨1⟩, 2⟩ (sideInfo 125 0 0 0 0 0) 3000 6672 ⟨1000, 1008⟩
        = Outcome.returned s1) ∧
    ResvFrameBegin ⟨⟨1⟩, 2⟩ (sideInfo 124 0 0 0 0 0) 3000 6000 ⟨1000, 1008⟩
      = Outcome.aborted ⟨1000, 1008⟩ :=
  ⟨(C2_ResvFrameBegin_succeeds_iff ⟨⟨1⟩, 2⟩ (sideInfo 125 0 0 0 0 0) 3000 6672
      ⟨1000, 1008⟩).1.2 (by decide),
    (C2_ResvFrameBegin_succeeds_iff ⟨⟨1⟩, 2⟩ (sideInfo 124 0 0 0 0 0) 3000 6000
      ⟨1000, 1008⟩).2 (by decide)⟩

/-- C3: a ResvFrameBegin whose offset agrees with the occupancy returns, leaves
the occupancy unchanged and sets the capacity to
`min(resvLimit, max(0, 7680 - frameLength))`, where resvLimit is 4088 for
version 1 and 2040 otherwise; the previous capacity and `mean_bits` play no
part. -/
theorem C3_ResvFrameBegin_capacity (fr_ps : frame_params) (l3_side : III_side_info_t)
    (mean_bits frameLength : Int) (s : ResvState)
    (h : l3_side.main_data_begin * 8 = s.ResvSize) :
    ResvFrameBegin fr_ps l3_side mean_bits frameLength s
      = Outcome.returned ⟨s.ResvSize,
          min (if fr_ps.header.version = 1 then 4088 else 2040)
            (max 0 (7680 - frameLength))⟩ :=
  ResvFrameBegin_returned fr_ps l3_side mean_bits frameLength s h

/-- C3 at the spec's scenarios: version 1 with frame length 6672 gives capacity
1008, and frame length 8000 gives capacity 0 (here from a previous capacity
of 500 and a version 2 frame of length 100 gives 2040). -/
theorem C3_ResvFrameBegin_capacity_witness :
    ResvFrameBegin ⟨⟨1⟩, 2⟩ (sideInfo 0 0 0 0 0 0) 3000 6672 ⟨0, 0⟩
      = Outcome.returned ⟨0, 1008⟩ ∧
    ResvFrameBegin ⟨⟨1⟩, 2⟩ (sideInfo 0 0 0 0 0 0) 3000 8000 ⟨0, 500⟩
      = Outcome.returned ⟨0, 0⟩ ∧
    ResvFrameBegin ⟨⟨2⟩, 2⟩ (sideInfo 1 0 0 0 0 0) 3000 100 ⟨8, 500⟩
      = Outcome.returned ⟨8, 2040⟩ :=
  ⟨(C3_ResvFrameBegin_capacity ⟨⟨1⟩, 2⟩ (sideInfo 0 0 0 0 0 0) 3000 6672 ⟨0, 0⟩
      (by decide)).trans (by decide),
    (C3_ResvFrameBegin_capacity ⟨⟨1⟩, 2⟩ (sideInfo 0 0 0 0 0 0) 3000 8000 ⟨0, 500⟩
      (by decide)).trans (by decide),
    (C3_ResvFrameBegin_capacity ⟨⟨2⟩, 2⟩ (sideInfo 1 0 0 0 0 0) 3000 100 ⟨8, 500⟩
      (by decide)).trans (by decide)⟩

/-! ## C4: one frame, from ResvFrameBegin to ResvFrameEnd -/

/-- C4: after a ResvFrameBegin that returned, any run of ResvAdjust calls with
arbitrary arguments, and ResvFrameEnd (with arbitrary arguments), the occupancy
is at most resvLimit of the version given to ResvFrameBegin (4088 for version 1,
2040 otherwise), so occupancy / 8 is at most 511 resp. 255, and when
`frameLength ≤ 7680` the occupancy plus the frame length is at most 7680. -/
theorem C4_frame_occupancy_bound (fr_ps : frame_params) (l3_side : III_side_info_t)
    (mean_bits frameLength : Int) (s s1 : ResvState)
    (hbegin : ResvFrameBegin fr_ps l3_side mean_bits frameLength s = Outcome.returned s1)
    (calls : List (frame_params × gr_info × Int))
    (fr_end : frame_params) (l3_end : III_side_info_t) (mean_end : Int) :
    (ResvFrameEnd fr_end l3_end mean_end (ResvAdjustAll calls s1)).1.ResvSize
        ≤ (if fr_ps.header.version = 1 then 4088 else 2040) ∧
    ((ResvFrameEnd fr_end l3_end mean_end (ResvAdjustAll calls s1)).1.ResvSize).tdiv 8
        ≤ (if fr_ps.header.version = 1 then 511 else 255) ∧
    (frameLength ≤ 7680 →
      (ResvFrameEnd fr_end l3_end mean_end (ResvAdjustAll calls s1)).1.ResvSize
        + frameLength ≤ 7680) := by
  have hoff : l3_side.main_data_begin * 8 = s.ResvSize := by
    by_contra hne
    rw [ResvFrameBegin_aborted fr_ps l3_side mean_bits frameLength s hne] at hbegin
    exact Outcome.noConfusion hbegin
  rw [ResvFrameBegin_returned fr_ps l3_side mean_bits frameLength s hoff] at hbegin
  have hs1 : s1.ResvMax
      = min (resvLimit fr_ps.header.version) (max 0 (7680 - frameLength)) := by
    injection hbegin with h1
    rw [← h1]
  have hmax : (ResvAdjustAll calls s1).ResvMax = s1.ResvMax := ResvAdjustAll_ResvMax calls s1
  have hlim : resvLimit fr_ps.header.version
      = if fr_ps.header.version = 1 then 4088 else 2040 := rfl
  have hpos : 0 ≤ (ResvAdjustAll calls s1).ResvMax := by
    rw [hmax, hs1, hlim]; split_ifs <;> omega
  have hle := clamp_fst_le fr_end.stereo mean_end (ResvAdjustAll calls s1) hpos
  rw [ResvFrameEnd_ResvSize]
  rw [hmax, hs1, hlim] at hle
  generalize (ResvFrameEnd.clamp fr_end.stereo mean_end (ResvAdjustAll calls s1)).1 = r at hle ⊢
  rw [tdiv_by_nonneg r 8 (by decide)]
  refine ⟨?_, ?_, ?_⟩
  · split_ifs at hle ⊢ <;> omega
  · split_ifs at hle ⊢ <;> omega
  · intro hfl; split_ifs at hle <;> omega

/-- C4 at a concrete frame: version 1, frame length 6672 (capacity 1008), two
granules that each return 600 unused bits, then ResvFrameEnd: occupancy 1008. -/
theorem C4_frame_occupancy_bound_witness :
    ResvFrameBegin ⟨⟨1⟩, 1⟩ (sideInfo 0 0 0 0 0 0) 3000 6672 ⟨0, 0⟩
      = Outcome.returned ⟨0, 1008⟩ ∧
    (ResvFrameEnd ⟨⟨1⟩, 1⟩ (sideInfo 0 0 2400 2400 0 0) 3000
      (ResvAdjustAll [(⟨⟨1⟩, 1⟩, ⟨2400⟩, 3000), (⟨⟨1⟩, 1⟩, ⟨2400⟩, 3000)] ⟨0, 1008⟩)).1.ResvSize
      = 1008 ∧
    (ResvFrameEnd ⟨⟨1⟩, 1⟩ (sideInfo 0 0 2400 2400 0 0) 3000
      (ResvAdjustAll [(⟨⟨1⟩, 1⟩, ⟨2400⟩, 3000), (⟨⟨1⟩, 1⟩, ⟨2400⟩, 3000)] ⟨0, 1008⟩)).1.ResvSize
      ≤ 4088 :=
  ⟨by decide, by decide,
    (C4_frame_occupancy_bound ⟨⟨1⟩, 1⟩ (sideInfo 0 0 0 0 0 0) 3000 6672 ⟨0, 0⟩ ⟨0, 1008⟩
      (by decide) [(⟨⟨1⟩, 1⟩, ⟨2400⟩, 3000), (⟨⟨1⟩, 1⟩, ⟨2400⟩, 3000)]
      ⟨⟨1⟩, 1⟩ (sideInfo 0 0 2400 2400 0 0) 3000).1⟩

/-! ## C5-C7: ResvMaxBits -/

/-- When the occupancy is not negative, or `more_bits` is at most 100, the
allowance `add_bits` is not negative. -/
theorem add_bits_nonneg (more_bits : Int) (s : ResvState)
    (h : 0 ≤ s.ResvSize ∨ more_bits ≤ 100) :
    0 ≤ ResvMaxBits.add_bits more_bits s := by
  unfold ResvMaxBits.add_bits
  simp only []
  rw [tdiv_by_nonneg (s.ResvSize * 6) 10 (by decide)]
  split_ifs <;> omega

/-- C5: ResvMaxBits never returns more than 4095. -/
theorem C5_ResvMaxBits_le_4095 (fr_ps : frame_params) (more_bits mean_bits : Int)
    (s : ResvState) :
    ResvMaxBits fr_ps more_bits mean_bits s ≤ 4095 := by
  unfold ResvMaxBits
  simp only []
  split_ifs <;> omega

/-- C6, as stated, fails for a negative occupancy: mono, 1000 mean bits,
`more_bits` 200, occupancy -100 and capacity 1000 give an allowance of 940,
below `min(1000 / 1, 4095) = 1000`.  Occupancy -100 is what ResvAdjust leaves
from occupancy 0 after a granule coded in 1100 bits. -/
theorem C6_counterexample :
    ResvAdjust ⟨⟨1⟩, 1⟩ ⟨1100⟩ 1000 ⟨0, 1000⟩ = ⟨-100, 1000⟩ ∧
    ResvMaxBits ⟨⟨1⟩, 1⟩ 200 1000 ⟨-100, 1000⟩ = 940 ∧
    ¬ (min ((1000 : Int).tdiv 1) 4095 ≤ ResvMaxBits ⟨⟨1⟩, 1⟩ 200 1000 ⟨-100, 1000⟩) := by
  decide

/-- C6 (amended): ResvMaxBits returns at least `min(mean_bits / stereo, 4095)`
whenever the occupancy is not negative; the same holds for any occupancy when
the capacity is 0 or `more_bits` is at most 100. -/
theorem C6_ResvMaxBits_ge_base (fr_ps : frame_params) (more_bits mean_bits : Int)
    (s : ResvState) (h : 0 ≤ s.ResvSize ∨ s.ResvMax = 0 ∨ more_bits ≤ 100) :
    min (mean_bits.tdiv fr_ps.stereo) 4095 ≤ ResvMaxBits fr_ps more_bits mean_bits s := by
  unfold ResvMaxBits
  simp only []
  by_cases hmax : s.ResvMax = 0
  · simp only [hmax, if_true]; split_ifs <;> omega
  · have hadd : 0 ≤ ResvMaxBits.add_bits more_bits s :=
      add_bits_nonneg more_bits s (by omega)
    simp only [hmax, if_false]
    split_ifs <;> omega

/-- C6 (amended) at a concrete call: stereo, 3001 mean bits, `more_bits` 200,
occupancy 500 and capacity 1000: the allowance 1700 is at least 1500. -/
theorem C6_ResvMaxBits_ge_base_witness :
    ResvMaxBits ⟨⟨1⟩, 2⟩ 200 3001 ⟨500, 1000⟩ = 1700 ∧
    min ((3001 : Int).tdiv 2) 4095 ≤ ResvMaxBits ⟨⟨1⟩, 2⟩ 200 3001 ⟨500, 1000⟩ :=
  ⟨by decide, C6_ResvMaxBits_ge_base ⟨⟨1⟩, 2⟩ 200 3001 ⟨500, 1000⟩ (Or.inl (by decide))⟩

/-- C7: with capacity 0, ResvMaxBits returns exactly
`min(mean_bits / stereo, 4095)`, whatever the occupancy and `more_bits`. -/
theorem C7_ResvMaxBits_zero_capacity (fr_ps : frame_params) (more_bits mean_bits : Int)
    (s : ResvState) (h : s.ResvMax = 0) :
    ResvMaxBits fr_ps more_bits mean_bits s = min (mean_bits.tdiv fr_ps.stereo) 4095 := by
  unfold ResvMaxBits
  simp only [h, if_true]
  split_ifs <;> omega

/-- C7 at the spec's scenario: ResvFrameBegin with frame length 8000 leaves
capacity 0, and then stereo with 3000 mean bits gets 1500 for `more_bits` 5000
as for `more_bits` 0. -/
theorem C7_ResvMaxBits_zero_capacity_witness :
    ResvFrameBegin ⟨⟨1⟩, 2⟩ (sideInfo 100 0 0 0 0 0) 3000 8000 ⟨800, 1008⟩
      = Outcome.returned ⟨800, 0⟩ ∧
    ResvMaxBits ⟨⟨1⟩, 2⟩ 5000 3000 ⟨800, 0⟩ = 1500 ∧
    ResvMaxBits ⟨⟨1⟩, 2⟩ 0 3000 ⟨800, 0⟩ = 1500 :=
  ⟨by decide,
    (C7_ResvMaxBits_zero_capacity ⟨⟨1⟩, 2⟩ 5000 3000 ⟨800, 0⟩ rfl).trans (by decide),
    (C7_ResvMaxBits_zero_capacity ⟨⟨1⟩, 2⟩ 0 3000 ⟨800, 0⟩ rfl).trans (by decide)⟩

/-! ## C8: ResvAdjust -/

/-- C8: ResvAdjust sets the occupancy to
`occupancy + mean_bits / stereo - part2_3_length` (C division) and leaves the
capacity unchanged, without clamping: the spec's scenario (500, 1000, 600, 550)
gives 550, and the result may exceed the capacity or be negative. -/
theorem C8_ResvAdjust (fr_ps : frame_params) (gi : gr_info) (mean_bits : Int)
    (s : ResvState) :
    ResvAdjust fr_ps gi mean_bits s
        = ⟨s.ResvSize + mean_bits.tdiv fr_ps.stereo - gi.part2_3_length, s.ResvMax⟩ ∧
    ResvAdjust ⟨⟨1⟩, 1⟩ ⟨550⟩ 600 ⟨500, 1000⟩ = ⟨550, 1000⟩ ∧
    ResvAdjust ⟨⟨1⟩, 2⟩ ⟨550⟩ 1201 ⟨500, 1000⟩ = ⟨550, 1000⟩ ∧
    ResvAdjust ⟨⟨1⟩, 2⟩ ⟨0⟩ 1201 ⟨500, 1000⟩ = ⟨1100, 1000⟩ ∧
    ResvAdjust ⟨⟨1⟩, 1⟩ ⟨700⟩ 600 ⟨0, 1000⟩ = ⟨-100, 1000⟩ := by
  refine ⟨?_, by decide, by decide, by decide, by decide⟩
  unfold ResvAdjust
  congr 1
  omega

/-! ## The stuffing pass of ResvFrameEnd -/

/-- The code's `stuffingBits` on line 188 is the stuffing budget. -/
theorem clamp_snd_eq_budget (fr_ps : frame_params) (l3_side : III_side_info_t)
    (mean_bits : Int) (s : ResvState) :
    (ResvFrameEnd.clamp fr_ps.stereo mean_bits s).2
      = stuffingBudget fr_ps l3_side mean_bits s := by
  rw [clamp_snd]; rfl

theorem ResvFrameEnd_snd (fr_ps : frame_params) (l3_side : III_side_info_t)
    (mean_bits : Int) (s : ResvState) :
    (ResvFrameEnd fr_ps l3_side mean_bits s).2
      = ResvFrameEnd.stuff fr_ps l3_side (stuffingBudget fr_ps l3_side mean_bits s) := by
  rw [← clamp_snd_eq_budget]; rfl

theorem sumLengths_setLength (l3_side : III_side_info_t) (g c : Nat) (v : Int)
    (hg : g < 2) (hc : c < 2) :
    sumLengths (setLength l3_side g c v)
      = sumLengths l3_side + (v - (l3_side.gr g c).part2_3_length) := by
  interval_cases g <;> interval_cases c <;> simp [sumLengths, setLength] <;> omega

theorem setLength_other (l3_side : III_side_info_t) (g c i j : Nat) (v : Int)
    (h : ¬ (i = g ∧ j = c)) :
    (setLength l3_side g c v).gr i j = l3_side.gr i j := by
  simp [setLength, h]

theorem setLength_same (l3_side : III_side_info_t) (g c : Nat) (v : Int) :
    ((setLength l3_side g c v).gr g c).part2_3_length = v := by
  simp [setLength]

/-- The inner loop moves bits from `stuffingBits` into the slots: the sum of the
lengths plus the remaining budget is unchanged. -/
theorem chLoop_sum (gr : Nat) (hg : gr < 2) (n : Nat) :
    ∀ (ch : Nat) (l3_side : III_side_info_t) (k : Int), ch + n ≤ 2 →
      sumLengths (ResvFrameEnd.chLoop gr n ch (l3_side, k)).1
          + (ResvFrameEnd.chLoop gr n ch (l3_side, k)).2
        = sumLengths l3_side + k := by
  induction n with
  | zero => intro ch l3_side k _; rfl
  | succ n ih =>
    intro ch l3_side k hch
    rw [ResvFrameEnd.chLoop]
    split_ifs with hk
    · rfl
    · simp only []
      rw [ih (ch + 1) _ _ (by omega), sumLengths_setLength _ _ _ _ hg (by omega)]
      omega

/-- The inner loop changes no slot outside channels `ch .. ch + n - 1` of
granule `gr`. -/
theorem chLoop_other (gr : Nat) (n : Nat) :
    ∀ (ch : Nat) (l3_side : III_side_info_t) (k : Int) (i j : Nat),
      ¬ (i = gr ∧ ch ≤ j ∧ j < ch + n) →
      (ResvFrameEnd.chLoop gr n ch (l3_side, k)).1.gr i j = l3_side.gr i j := by
  induction n with
  | zero => intro ch l3_side k i j _; rfl
  | succ n ih =>
    intro ch l3_side k i j hij
    rw [ResvFrameEnd.chLoop]
    split_ifs with hk
    · rfl
    · simp only []
      rw [ih (ch + 1) _ _ i j (by omega), setLength_other _ _ _ _ _ _ (by omega)]

theorem grLoop_sum (stereo : Int) (hst : stereo.toNat ≤ 2) (n : Nat) :
    ∀ (gr : Nat) (st : III_side_info_t × Int), gr + n ≤ 2 →
      sumLengths (ResvFrameEnd.grLoop stereo n gr st).1
          + (ResvFrameEnd.grLoop stereo n gr st).2
        = sumLengths st.1 + st.2 := by
  induction n with
  | zero => intro gr st _; rfl
  | succ n ih =>
    intro gr st hgr
    rw [ResvFrameEnd.grLoop, ih (gr + 1) _ (by omega)]
    exact chLoop_sum gr (by omega) stereo.toNat 0 st.1 st.2 (by omega)

/-- The outer loop changes no slot outside granules `gr .. gr + n - 1`,
channels below `stereo`. -/
theorem grLoop_other (stereo : Int) (n : Nat) :
    ∀ (gr : Nat) (st : III_side_info_t × Int) (i j : Nat),
      ¬ (gr ≤ i ∧ i < gr + n ∧ j < stereo.toNat) →
      (ResvFrameEnd.grLoop stereo n gr st).1.gr i j = st.1.gr i j := by
  induction n with
  | zero => intro gr st i j _; rfl
  | succ n ih =>
    intro gr st i j hij
    rw [ResvFrameEnd.grLoop, ih (gr + 1) _ i j (by omega)]
    exact chLoop_other gr stereo.toNat 0 st.1 st.2 i j (by omega)

theorem mode_gr_toNat_le (version : Int) : (mode_gr version).toNat ≤ 2 := by
  unfold mode_gr; split_ifs <;> decide

/-- What the stuffing pass leaves when plan a applies to a budget that is not 0. -/
theorem stuff_planA (fr_ps : frame_params) (l3_side : III_side_info_t) (k : Int)
    (hk : k ≠ 0) (hA : planA l3_side k) :
    ResvFrameEnd.stuff fr_ps l3_side k
      = setLength l3_side 0 0 ((l3_side.gr 0 0).part2_3_length + k) := by
  unfold planA at hA
  unfold ResvFrameEnd.stuff
  simp only [hk, hA, ne_eq, not_false_eq_true, if_true]

/-- What the stuffing pass leaves when plan a does not apply: the result of
the two loops, with the remaining budget in `resvDrain`. -/
theorem stuff_planB (fr_ps : frame_params) (l3_side : III_side_info_t) (k : Int)
    (hk : k ≠ 0) (hA : ¬ planA l3_side k) :
    ResvFrameEnd.stuff fr_ps l3_side k
      = ⟨(ResvFrameEnd.grLoop fr_ps.stereo (mode_gr fr_ps.header.version).toNat 0
            (l3_side, k)).1.main_data_begin,
          (ResvFrameEnd.grLoop fr_ps.stereo (mode_gr fr_ps.header.version).toNat 0
            (l3_side, k)).2,
          (ResvFrameEnd.grLoop fr_ps.stereo (mode_gr fr_ps.header.version).toNat 0
            (l3_side, k)).1.gr⟩ := by
  unfold planA at hA
  unfold ResvFrameEnd.stuff
  simp only [hk, hA, ne_eq, not_false_eq_true, if_true, if_false]

theorem stuff_zero (fr_ps : frame_params) (l3_side : III_side_info_t) :
    ResvFrameEnd.stuff fr_ps l3_side 0 = l3_side := by
  unfold ResvFrameEnd.stuff
  simp

/-! ## C9: conservation of the stuffing bits -/

/-- C9, as stated, fails when the drain field is not 0 on entry: plan a (like a
call with budget 0) does not write `resvDrain`.  Version 1, stereo, 601 mean
bits, occupancy 1007 and capacity 1000, slot (0,0) at 2000 and `resvDrain` 16
on entry: the budget is 8, the lengths grow by 8 in all, `resvDrain` is still
16, and 8 is not 8 - 16. -/
theorem C9_counterexample :
    stuffingBudget ⟨⟨1⟩, 2⟩ (sideInfo 0 16 2000 1500 1500 1500) 601 ⟨1007, 1000⟩ = 8 ∧
    sumLengths (ResvFrameEnd ⟨⟨1⟩, 2⟩ (sideInfo 0 16 2000 1500 1500 1500) 601 ⟨1007, 1000⟩).2
      - sumLengths (sideInfo 0 16 2000 1500 1500 1500) = 8 ∧
    (ResvFrameEnd ⟨⟨1⟩, 2⟩ (sideInfo 0 16 2000 1500 1500 1500) 601 ⟨1007, 1000⟩).2.resvDrain
      = 16 ∧
    ¬ (sumLengths
          (ResvFrameEnd ⟨⟨1⟩, 2⟩ (sideInfo 0 16 2000 1500 1500 1500) 601 ⟨1007, 1000⟩).2
        - sumLengths (sideInfo 0 16 2000 1500 1500 1500)
      = stuffingBudget ⟨⟨1⟩, 2⟩ (sideInfo 0 16 2000 1500 1500 1500) 601 ⟨1007, 1000⟩
        - (ResvFrameEnd ⟨⟨1⟩, 2⟩ (sideInfo 0 16 2000 1500 1500 1500) 601
            ⟨1007, 1000⟩).2.resvDrain) := by
  decide

/-- C9 (amended): for every ResvFrameEnd call with one or two channels that is
entered with `resvDrain` equal to 0, or that takes plan b, the sum of
`part2_3_length` over the slots after the call minus the sum before it equals
the stuffing budget minus `resvDrain` after the call.  The budget is the code's
`stuffingBits` (overflow plus byte-alignment remainder), equal to the occupancy
on entry plus the parity fix minus the occupancy on exit; slots outside the
frame's granules and channels are not touched, so the sum may be taken over
the whole table or over the frame's slots. -/
theorem C9_stuffing_conservation (fr_ps : frame_params) (l3_side : III_side_info_t)
    (mean_bits : Int) (s : ResvState)
    (hst : fr_ps.stereo = 1 ∨ fr_ps.stereo = 2)
    (hdrain : l3_side.resvDrain = 0 ∨
      (stuffingBudget fr_ps l3_side mean_bits s ≠ 0 ∧
        ¬ planA l3_side (stuffingBudget fr_ps l3_side mean_bits s))) :
    (ResvFrameEnd.clamp fr_ps.stereo mean_bits s).2
        = stuffingBudget fr_ps l3_side mean_bits s ∧
    sumLengths (ResvFrameEnd fr_ps l3_side mean_bits s).2 - sumLengths l3_side
        = stuffingBudget fr_ps l3_side mean_bits s
          - (ResvFrameEnd fr_ps l3_side mean_bits s).2.resvDrain ∧
    (∀ g c : Nat, ¬ (g < (mode_gr fr_ps.header.version).toNat ∧ c < fr_ps.stereo.toNat) →
      (ResvFrameEnd fr_ps l3_side mean_bits s).2.gr g c = l3_side.gr g c) := by
  refine ⟨clamp_snd_eq_budget fr_ps l3_side mean_bits s, ?_⟩
  rw [ResvFrameEnd_snd]
  generalize stuffingBudget fr_ps l3_side mean_bits s = k at hdrain ⊢
  have hch : fr_ps.stereo.toNat ≤ 2 ∧ 0 < fr_ps.stereo.toNat := by
    rcases hst with h | h <;> rw [h] <;> decide
  have hgr : 0 < (mode_gr fr_ps.header.version).toNat := by
    unfold mode_gr; split_ifs <;> decide
  by_cases hk : k = 0
  · subst hk
    rw [stuff_zero]
    have h0 : l3_side.resvDrain = 0 := by
      rcases hdrain with h | h
      · exact h
      · exact absurd rfl h.1
    exact ⟨by omega, fun _ _ _ => rfl⟩
  · by_cases hA : planA l3_side k
    · rw [stuff_planA fr_ps l3_side k hk hA]
      have h0 : l3_side.resvDrain = 0 := by
        rcases hdrain with h | h
        · exact h
        · exact absurd hA h.2
      refine ⟨?_, ?_⟩
      · rw [sumLengths_setLength _ _ _ _ (by decide) (by decide)]
        have hd : (setLength l3_side 0 0 ((l3_side.gr 0 0).part2_3_length + k)).resvDrain
            = l3_side.resvDrain := rfl
        omega
      · intro g c hgc
        exact setLength_other _ _ _ _ _ _ (by omega)
    · rw [stuff_planB fr_ps l3_side k hk hA]
      refine ⟨?_, ?_⟩
      · have hsum := grLoop_sum fr_ps.stereo hch.1 (mode_gr fr_ps.header.version).toNat 0
          (l3_side, k) (by have := mode_gr_toNat_le fr_ps.header.version; omega)
        simp only [sumLengths] at hsum ⊢
        omega
      · intro g c hgc
        exact grLoop_other fr_ps.stereo (mode_gr fr_ps.header.version).toNat 0
          (l3_side, k) g c (by omega)

/-- C9 (amended) at two concrete calls: the spec's scenario 4 (plan a, drain 0
on entry: the lengths grow by 203 = 203 - 0) and scenario 5 with a stale drain
of 7 on entry (plan b: the one slot grows by 5 = 50 - 45). -/
theorem C9_stuffing_conservation_witness :
    (sumLengths (ResvFrameEnd ⟨⟨1⟩, 1⟩ (sideInfo 0 0 3800 0 3000 0) 0 ⟨1203, 1000⟩).2
        - sumLengths (sideInfo 0 0 3800 0 3000 0)
      = stuffingBudget ⟨⟨1⟩, 1⟩ (sideInfo 0 0 3800 0 3000 0) 0 ⟨1203, 1000⟩
        - (ResvFrameEnd ⟨⟨1⟩, 1⟩ (sideInfo 0 0 3800 0 3000 0) 0 ⟨1203, 1000⟩).2.resvDrain) ∧
    (sumLengths (ResvFrameEnd ⟨⟨2⟩, 1⟩ (sideInfo 0 7 4090 0 0 0) 0 ⟨1050, 1000⟩).2
        - sumLengths (sideInfo 0 7 4090 0 0 0)
      = stuffingBudget ⟨⟨2⟩, 1⟩ (sideInfo 0 7 4090 0 0 0) 0 ⟨1050, 1000⟩
        - (ResvFrameEnd ⟨⟨2⟩, 1⟩ (sideInfo 0 7 4090 0 0 0) 0 ⟨1050, 1000⟩).2.resvDrain) ∧
    stuffingBudget ⟨⟨2⟩, 1⟩ (sideInfo 0 7 4090 0 0 0) 0 ⟨1050, 1000⟩ = 50 ∧
    (ResvFrameEnd ⟨⟨2⟩, 1⟩ (sideInfo 0 7 4090 0 0 0) 0 ⟨1050, 1000⟩).2.resvDrain = 45 :=
  ⟨(C9_stuffing_conservation ⟨⟨1⟩, 1⟩ (sideInfo 0 0 3800 0 3000 0) 0 ⟨1203, 1000⟩
      (Or.inl rfl) (Or.inl rfl)).2.1,
    (C9_stuffing_conservation ⟨⟨2⟩, 1⟩ (sideInfo 0 7 4090 0 0 0) 0 ⟨1050, 1000⟩
      (Or.inl rfl) (Or.inr (by decide))).2.1,
    by decide, by decide⟩

/-! ## C10: plan a -/

/-- C10, as stated, fails in its last part: plan a does not write `resvDrain`.
Version 1, mono, occupancy 1203 and capacity 1000, slot (0,0) at 3800 and
`resvDrain` 45 on entry: the budget is 203, plan a applies (4003 < 4095), and
`resvDrain` is 45 after the call, not 0. -/
theorem C10_counterexample :
    0 < stuffingBudget ⟨⟨1⟩, 1⟩ (sideInfo 0 45 3800 0 3000 0) 0 ⟨1203, 1000⟩ ∧
    ((sideInfo 0 45 3800 0 3000 0).gr 0 0).part2_3_length
      + stuffingBudget ⟨⟨1⟩, 1⟩ (sideInfo 0 45 3800 0 3000 0) 0 ⟨1203, 1000⟩ < 4095 ∧
    (ResvFrameEnd ⟨⟨1⟩, 1⟩ (sideInfo 0 45 3800 0 3000 0) 0 ⟨1203, 1000⟩).2.resvDrain = 45 ∧
    ¬ ((ResvFrameEnd ⟨⟨1⟩, 1⟩ (sideInfo 0 45 3800 0 3000 0) 0 ⟨1203, 1000⟩).2.resvDrain
        = 0) := by
  decide

/-- C10 (amended): for every ResvFrameEnd call whose stuffing budget is positive
and for which `part2_3_length` of slot (0,0) plus the budget is below 4095,
after the call slot (0,0) has grown by exactly the budget, every other slot is
unchanged, and `resvDrain` is what it was on entry (so 0 if it was 0). -/
theorem C10_planA (fr_ps : frame_params) (l3_side : III_side_info_t)
    (mean_bits : Int) (s : ResvState)
    (hpos : 0 < stuffingBudget fr_ps l3_side mean_bits s)
    (hA : (l3_side.gr 0 0).part2_3_length + stuffingBudget fr_ps l3_side mean_bits s
      < 4095) :
    ((ResvFrameEnd fr_ps l3_side mean_bits s).2.gr 0 0).part2_3_length
        = (l3_side.gr 0 0).part2_3_length + stuffingBudget fr_ps l3_side mean_bits s ∧
    (∀ g c : Nat, ¬ (g = 0 ∧ c = 0) →
      (ResvFrameEnd fr_ps l3_side mean_bits s).2.gr g c = l3_side.gr g c) ∧
    (ResvFrameEnd fr_ps l3_side mean_bits s).2.resvDrain = l3_side.resvDrain ∧
    (l3_side.resvDrain = 0 → (ResvFrameEnd fr_ps l3_side mean_bits s).2.resvDrain = 0) := by
  rw [ResvFrameEnd_snd]
  generalize stuffingBudget fr_ps l3_side mean_bits s = k at hpos hA ⊢
  rw [stuff_planA fr_ps l3_side k (by omega) hA]
  refine ⟨setLength_same _ _ _ _, ?_, rfl, fun h => h⟩
  intro g c hgc
  exact setLength_other _ _ _ _ _ _ hgc

/-- C10 (amended) at the spec's scenario 4: occupancy 1203, capacity 1000, slot
(0,0) at 3800, no parity fix, `resvDrain` 0 on entry: occupancy 1000, slot
(0,0) at 4003, the other slots as they were, `resvDrain` 0. -/
theorem C10_planA_witness :
    (ResvFrameEnd ⟨⟨1⟩, 2⟩ (sideInfo 0 0 3800 100 200 300) 600 ⟨1203, 1000⟩).1
      = ⟨1000, 1000⟩ ∧
    ((ResvFrameEnd ⟨⟨1⟩, 2⟩ (sideInfo 0 0 3800 100 200 300) 600 ⟨1203, 1000⟩).2.gr
      0 0).part2_3_length = 4003 ∧
    (ResvFrameEnd ⟨⟨1⟩, 2⟩ (sideInfo 0 0 3800 100 200 300) 600 ⟨1203, 1000⟩).2.gr 1 1
      = ⟨300⟩ ∧
    (ResvFrameEnd ⟨⟨1⟩, 2⟩ (sideInfo 0 0 3800 100 200 300) 600 ⟨1203, 1000⟩).2.resvDrain
      = 0 :=
  ⟨by decide,
    ((C10_planA ⟨⟨1⟩, 2⟩ (sideInfo 0 0 3800 100 200 300) 600 ⟨1203, 1000⟩
      (by decide) (by decide)).1).trans (by decide),
    ((C10_planA ⟨⟨1⟩, 2⟩ (sideInfo 0 0 3800 100 200 300) 600 ⟨1203, 1000⟩
      (by decide) (by decide)).2.1 1 1 (by decide)).trans (by decide),
    (C10_planA ⟨⟨1⟩, 2⟩ (sideInfo 0 0 3800 100 200 300) 600 ⟨1203, 1000⟩
      (by decide) (by decide)).2.2.2 rfl⟩

/-! ## Plan b as a greedy fill -/

theorem ite_lt_eq_min (a b : Int) : (if a < b then a else b) = min a b := by
  split <;> omega

theorem greedyFill_cons (len : Int) (rest : List Int) (k : Int) :
    greedyFill (len :: rest) k
      = ((len + min (4095 - len) k) :: (greedyFill rest (k - min (4095 - len) k)).1,
          (greedyFill rest (k - min (4095 - len) k)).2) := rfl

theorem greedyFill_zero (lens : List Int) (h : ∀ x ∈ lens, x ≤ 4095) :
    greedyFill lens 0 = (lens, 0) := by
  induction lens with
  | nil => rfl
  | cons a rest ih =>
    have ha : a ≤ 4095 := h a (List.mem_cons_self _ _)
    have hmin : min (4095 - a) 0 = 0 := by omega
    rw [greedyFill_cons, hmin, sub_zero, add_zero,
      ih (fun x hx => h x (List.mem_cons_of_mem _ hx))]

theorem greedyFill_append (xs ys : List Int) (k : Int) :
    greedyFill (xs ++ ys) k
      = ((greedyFill xs k).1 ++ (greedyFill ys (greedyFill xs k).2).1,
          (greedyFill ys (greedyFill xs k).2).2) := by
  induction xs generalizing k with
  | nil => rfl
  | cons a rest ih =>
    rw [List.cons_append, greedyFill_cons, ih, greedyFill_cons]
    rfl

theorem room_sum_nonneg (lens : List Int) (h : ∀ x ∈ lens, x ≤ 4095) :
    0 ≤ (lens.map fun len => 4095 - len).sum := by
  apply List.sum_nonneg
  intro y hy
  obtain ⟨z, hz, rfl⟩ := List.mem_map.1 hy
  have := h z hz
  omega

/-- The budget left by the greedy fill: what exceeds the room in the slots. -/
theorem greedyFill_snd (lens : List Int) (h : ∀ x ∈ lens, x ≤ 4095) (k : Int) (hk : 0 ≤ k) :
    (greedyFill lens k).2 = max 0 (k - (lens.map fun len => 4095 - len).sum) := by
  induction lens generalizing k with
  | nil => simp [greedyFill]; omega
  | cons a rest ih =>
    have ha : a ≤ 4095 := h a (List.mem_cons_self _ _)
    rw [greedyFill_cons]
    simp only [List.map_cons, List.sum_cons]
    rw [ih (fun x hx => h x (List.mem_cons_of_mem _ hx)) _ (by omega)]
    have hsum := room_sum_nonneg rest (fun x hx => h x (List.mem_cons_of_mem _ hx))
    omega

/-- When the greedy fill leaves budget unplaced, every slot ends at 4095. -/
theorem greedyFill_full (lens : List Int) (h : ∀ x ∈ lens, x ≤ 4095) (k : Int) (hk : 0 ≤ k)
    (hrem : 0 < (greedyFill lens k).2) :
    ∀ x ∈ (greedyFill lens k).1, x = 4095 := by
  induction lens generalizing k with
  | nil => intro x hx; simp [greedyFill] at hx
  | cons a rest ih =>
    have ha : a ≤ 4095 := h a (List.mem_cons_self _ _)
    have hrest : ∀ x ∈ rest, x ≤ 4095 := fun x hx => h x (List.mem_cons_of_mem _ hx)
    rw [greedyFill_cons] at hrem ⊢
    simp only at hrem
    intro x hx
    rcases List.mem_cons.1 hx with hx | hx
    · have hsnd := greedyFill_snd rest hrest (k - min (4095 - a) k) (by omega)
      have hsum := room_sum_nonneg rest hrest
      rw [hsnd] at hrem
      omega
    · exact ih hrest _ (by omega) hrem x hx

theorem lengthsAt_congr (a b : III_side_info_t) (slots : List (Nat × Nat))
    (h : ∀ p ∈ slots, a.gr p.1 p.2 = b.gr p.1 p.2) :
    lengthsAt a slots = lengthsAt b slots := by
  unfold lengthsAt
  apply List.map_congr_left
  intro p hp
  rw [h p hp]

theorem chLoop_zero (gr n ch : Nat) (l3_side : III_side_info_t) :
    ResvFrameEnd.chLoop gr n ch (l3_side, 0) = (l3_side, 0) := by
  cases n <;> simp [ResvFrameEnd.chLoop]

theorem chLoop_succ (gr n ch : Nat) (l3_side : III_side_info_t) (k : Int) (hk : k ≠ 0) :
    ResvFrameEnd.chLoop gr (n + 1) ch (l3_side, k)
      = ResvFrameEnd.chLoop gr n (ch + 1)
          (setLength l3_side gr ch ((l3_side.gr gr ch).part2_3_length
              + min (4095 - (l3_side.gr gr ch).part2_3_length) k),
            k - min (4095 - (l3_side.gr gr ch).part2_3_length) k) := by
  rw [ResvFrameEnd.chLoop]
  simp only [hk, if_false, ite_lt_eq_min]

/-- The inner loop is the greedy fill of the channels `ch .. ch + n - 1` of
granule `gr`, when the budget is not negative and these slots are at most 4095. -/
theorem chLoop_greedy (gr : Nat) (n : Nat) :
    ∀ (ch : Nat) (l3_side : III_side_info_t) (k : Int), 0 ≤ k →
      (∀ j, ch ≤ j → j < ch + n → (l3_side.gr gr j).part2_3_length ≤ 4095) →
      (lengthsAt (ResvFrameEnd.chLoop gr n ch (l3_side, k)).1
            ((List.range' ch n).map fun c => (gr, c)),
          (ResvFrameEnd.chLoop gr n ch (l3_side, k)).2)
        = greedyFill (lengthsAt l3_side ((List.range' ch n).map fun c => (gr, c))) k := by
  induction n with
  | zero => intro ch l3_side k _ _; rfl
  | succ n ih =>
    intro ch l3_side k hk hlen
    by_cases hk0 : k = 0
    · subst hk0
      rw [chLoop_zero, greedyFill_zero]
      intro x hx
      unfold lengthsAt at hx
      obtain ⟨p, hp, rfl⟩ := List.mem_map.1 hx
      obtain ⟨c, hc, rfl⟩ := List.mem_map.1 hp
      rw [List.mem_range'_1] at hc
      exact hlen c hc.1 hc.2
    · have hch := hlen ch (le_refl _) (by omega)
      rw [chLoop_succ gr n ch l3_side k hk0]
      have hrest : ∀ j, ch + 1 ≤ j → j < ch + 1 + n →
          ((setLength l3_side gr ch ((l3_side.gr gr ch).part2_3_length
              + min (4095 - (l3_side.gr gr ch).part2_3_length) k)).gr gr j).part2_3_length
            ≤ 4095 := by
        intro j hj1 hj2
        rw [setLength_other _ _ _ _ _ _ (by omega)]
        exact hlen j (by omega) (by omega)
      have hih := ih (ch + 1) _ (k - min (4095 - (l3_side.gr gr ch).part2_3_length) k)
        (by omega) hrest
      rw [Prod.ext_iff] at hih
      simp only at hih
      simp only [List.range'_succ, List.map_cons, lengthsAt] at hih ⊢
      rw [greedyFill_cons, Prod.ext_iff]
      simp only
      refine ⟨?_, ?_⟩
      · congr 1
        · rw [chLoop_other gr n (ch + 1) _ _ gr ch (by omega), setLength_same]
        · rw [hih.1]
          congr 2
          apply List.map_congr_left
          intro p hp
          obtain ⟨c, hc, rfl⟩ := List.mem_map.1 hp
          rw [List.mem_range'_1] at hc
          simp only
          rw [setLength_other _ _ _ _ _ _ (by omega)]
      · rw [hih.2]
        congr 2
        apply List.map_congr_left
        intro p hp
        obtain ⟨c, hc, rfl⟩ := List.mem_map.1 hp
        rw [List.mem_range'_1] at hc
        simp only
        rw [setLength_other _ _ _ _ _ _ (by omega)]

theorem chLoop_snd_nonneg (gr : Nat) (n : Nat) :
    ∀ (ch : Nat) (l3_side : III_side_info_t) (k : Int), 0 ≤ k →
      (∀ j, ch ≤ j → j < ch + n → (l3_side.gr gr j).part2_3_length ≤ 4095) →
      0 ≤ (ResvFrameEnd.chLoop gr n ch (l3_side, k)).2 := by
  induction n with
  | zero => intro ch l3_side k hk _; exact hk
  | succ n ih =>
    intro ch l3_side k hk hlen
    by_cases hk0 : k = 0
    · subst hk0; rw [chLoop_zero]
    · have hch := hlen ch (le_refl _) (by omega)
      rw [chLoop_succ gr n ch l3_side k hk0]
      apply ih (ch + 1) _ _ (by omega)
      intro j hj1 hj2
      rw [setLength_other _ _ _ _ _ _ (by omega)]
      exact hlen j (by omega) (by omega)

theorem lengthsAt_append (a : III_side_info_t) (xs ys : List (Nat × Nat)) :
    lengthsAt a (xs ++ ys) = lengthsAt a xs ++ lengthsAt a ys := by
  unfold lengthsAt
  exact List.map_append _ _ _

/-- The outer loop is the greedy fill of the slots of granules `gr .. gr + n - 1`
in the order granule outer, channel inner, when the budget is not negative and
these slots are at most 4095. -/
theorem grLoop_greedy (stereo : Int) (n : Nat) :
    ∀ (gr : Nat) (l3_side : III_side_info_t) (k : Int), 0 ≤ k →
      (∀ i j, gr ≤ i → i < gr + n → j < stereo.toNat →
        (l3_side.gr i j).part2_3_length ≤ 4095) →
      (lengthsAt (ResvFrameEnd.grLoop stereo n gr (l3_side, k)).1
            ((List.range' gr n).flatMap fun i =>
              (List.range' 0 stereo.toNat).map fun c => (i, c)),
          (ResvFrameEnd.grLoop stereo n gr (l3_side, k)).2)
        = greedyFill (lengthsAt l3_side ((List.range' gr n).flatMap fun i =>
              (List.range' 0 stereo.toNat).map fun c => (i, c))) k := by
  induction n with
  | zero => intro gr l3_side k _ _; rfl
  | succ n ih =>
    intro gr l3_side k hk hlen
    have hch := chLoop_greedy gr stereo.toNat 0 l3_side k hk
      (fun j _ hj => hlen gr j (le_refl _) (by omega) (by omega))
    have hmid2 := chLoop_snd_nonneg gr stereo.toNat 0 l3_side k hk
      (fun j _ hj => hlen gr j (le_refl _) (by omega) (by omega))
    have hother := chLoop_other gr stereo.toNat 0 l3_side k
    rw [ResvFrameEnd.grLoop]
    rcases hmid : ResvFrameEnd.chLoop gr stereo.toNat 0 (l3_side, k) with ⟨m1, m2⟩
    rw [hmid] at hch hmid2 hother
    simp only at hch hmid2 hother
    have hmidlen : ∀ i j, gr + 1 ≤ i → i < gr + 1 + n → j < stereo.toNat →
        (m1.gr i j).part2_3_length ≤ 4095 := by
      intro i j hi1 hi2 hj
      rw [hother i j (by omega)]
      exact hlen i j (by omega) (by omega) hj
    have hih := ih (gr + 1) m1 m2 hmid2 hmidlen
    have hrest : lengthsAt m1 ((List.range' (gr + 1) n).flatMap fun i =>
          (List.range' 0 stereo.toNat).map fun c => (i, c))
        = lengthsAt l3_side ((List.range' (gr + 1) n).flatMap fun i =>
          (List.range' 0 stereo.toNat).map fun c => (i, c)) := by
      apply lengthsAt_congr
      intro p hp
      obtain ⟨i, hi, hp⟩ := List.mem_flatMap.1 hp
      obtain ⟨c, _, rfl⟩ := List.mem_map.1 hp
      rw [List.mem_range'_1] at hi
      exact hother i c (by omega)
    have hfirst : lengthsAt (ResvFrameEnd.grLoop stereo n (gr + 1) (m1, m2)).1
          ((List.range' 0 stereo.toNat).map fun c => (gr, c))
        = lengthsAt m1 ((List.range' 0 stereo.toNat).map fun c => (gr, c)) := by
      apply lengthsAt_congr
      intro p hp
      obtain ⟨c, _, rfl⟩ := List.mem_map.1 hp
      exact grLoop_other stereo n (gr + 1) (m1, m2) gr c (by omega)
    rw [Prod.ext_iff] at hch hih
    simp only at hch hih
    rw [List.range'_succ, List.flatMap_cons, lengthsAt_append, lengthsAt_append,
      greedyFill_append, hfirst, hch.1, hih.1, hih.2, hrest, hch.2]

theorem frameSlots_eq (fr_ps : frame_params) :
    frameSlots fr_ps
      = (List.range' 0 (mode_gr fr_ps.header.version).toNat).flatMap fun i =>
          (List.range' 0 fr_ps.stereo.toNat).map fun c => (i, c) := by
  unfold frameSlots
  simp only [List.range_eq_range']

theorem mem_frameSlots (fr_ps : frame_params) (p : Nat × Nat) :
    p ∈ frameSlots fr_ps
      ↔ p.1 < (mode_gr fr_ps.header.version).toNat ∧ p.2 < fr_ps.stereo.toNat := by
  obtain ⟨g, c⟩ := p
  unfold frameSlots
  simp only [List.mem_flatMap, List.mem_map, List.mem_range, Prod.mk.injEq]
  constructor
  · rintro ⟨i, hi, j, hj, rfl, rfl⟩; exact ⟨hi, hj⟩
  · rintro ⟨hi, hj⟩; exact ⟨g, hi, c, hj, rfl, rfl⟩

/-! ## C11: plan b -/

/-- C11: for every ResvFrameEnd call (one or two channels) whose stuffing budget
is positive, where slot (0,0) plus the budget is not below 4095 and every slot
of the frame is at most 4095 on entry, the lengths of the frame's slots after
the call, in the order granule outer and channel inner, are those of the greedy
fill (each slot receives `min(4095 - length, remaining budget)`), `resvDrain` is
the budget the fill leaves, which is
`max(0, budget - sum over the slots of (4095 - length))`; `resvDrain` is positive
only if every slot of the frame ends at exactly 4095; slots outside the frame
are unchanged. -/
theorem C11_planB (fr_ps : frame_params) (l3_side : III_side_info_t)
    (mean_bits : Int) (s : ResvState)
    (hst : fr_ps.stereo = 1 ∨ fr_ps.stereo = 2)
    (hpos : 0 < stuffingBudget fr_ps l3_side mean_bits s)
    (hB : ¬ ((l3_side.gr 0 0).part2_3_length + stuffingBudget fr_ps l3_side mean_bits s
      < 4095))
    (hlen : ∀ p ∈ frameSlots fr_ps, (l3_side.gr p.1 p.2).part2_3_length ≤ 4095) :
    (lengthsAt (ResvFrameEnd fr_ps l3_side mean_bits s).2 (frameSlots fr_ps),
        (ResvFrameEnd fr_ps l3_side mean_bits s).2.resvDrain)
      = greedyFill (lengthsAt l3_side (frameSlots fr_ps))
          (stuffingBudget fr_ps l3_side mean_bits s) ∧
    (ResvFrameEnd fr_ps l3_side mean_bits s).2.resvDrain
      = max 0 (stuffingBudget fr_ps l3_side mean_bits s
          - ((lengthsAt l3_side (frameSlots fr_ps)).map fun len => 4095 - len).sum) ∧
    (0 < (ResvFrameEnd fr_ps l3_side mean_bits s).2.resvDrain →
      ∀ p ∈ frameSlots fr_ps,
        ((ResvFrameEnd fr_ps l3_side mean_bits s).2.gr p.1 p.2).part2_3_length = 4095) ∧
    (∀ g c : Nat, ¬ (g < (mode_gr fr_ps.header.version).toNat ∧ c < fr_ps.stereo.toNat) →
      (ResvFrameEnd fr_ps l3_side mean_bits s).2.gr g c = l3_side.gr g c) := by
  have _hch : fr_ps.stereo.toNat ≤ 2 := by
    rcases hst with h | h <;> rw [h] <;> decide
  rw [ResvFrameEnd_snd]
  generalize stuffingBudget fr_ps l3_side mean_bits s = k at hpos hB ⊢
  rw [stuff_planB fr_ps l3_side k (by omega) hB]
  have hlens : ∀ x ∈ lengthsAt l3_side (frameSlots fr_ps), x ≤ 4095 := by
    intro x hx
    unfold lengthsAt at hx
    obtain ⟨p, hp, rfl⟩ := List.mem_map.1 hx
    exact hlen p hp
  have hgreedy := grLoop_greedy fr_ps.stereo (mode_gr fr_ps.header.version).toNat 0
    l3_side k (by omega)
    (fun i j _ hi hj => hlen (i, j) ((mem_frameSlots fr_ps (i, j)).2 ⟨by omega, hj⟩))
  rw [← frameSlots_eq] at hgreedy
  have hpair := hgreedy
  rw [Prod.ext_iff] at hpair
  simp only at hpair
  refine ⟨?_, ?_, ?_, ?_⟩
  · exact hgreedy
  · show (ResvFrameEnd.grLoop fr_ps.stereo (mode_gr fr_ps.header.version).toNat 0
        (l3_side, k)).2 = _
    rw [hpair.2]
    exact greedyFill_snd _ hlens k (by omega)
  · intro hdrain p hp
    have hdrain2 : 0 < (greedyFill (lengthsAt l3_side (frameSlots fr_ps)) k).2 := by
      rw [← hpair.2]; exact hdrain
    have hall := greedyFill_full _ hlens k (by omega) hdrain2
    rw [← hpair.1] at hall
    apply hall
    unfold lengthsAt
    exact List.mem_map_of_mem _ hp
  · intro g c hgc
    exact grLoop_other fr_ps.stereo (mode_gr fr_ps.header.version).toNat 0
      (l3_side, k) g c (by omega)

/-- C11 at the spec's scenario 5: version 2, mono, the one slot at 4090 and a
budget of 50 (occupancy 1050 against capacity 1000): the slot ends at 4095 and
`resvDrain` is 45. -/
theorem C11_planB_witness :
    stuffingBudget ⟨⟨2⟩, 1⟩ (sideInfo 0 0 4090 0 0 0) 0 ⟨1050, 1000⟩ = 50 ∧
    (lengthsAt (ResvFrameEnd ⟨⟨2⟩, 1⟩ (sideInfo 0 0 4090 0 0 0) 0 ⟨1050, 1000⟩).2
        (frameSlots ⟨⟨2⟩, 1⟩),
      (ResvFrameEnd ⟨⟨2⟩, 1⟩ (sideInfo 0 0 4090 0 0 0) 0 ⟨1050, 1000⟩).2.resvDrain)
      = ([4095], 45) :=
  ⟨by decide,
    ((C11_planB ⟨⟨2⟩, 1⟩ (sideInfo 0 0 4090 0 0 0) 0 ⟨1050, 1000⟩ (Or.inl rfl)
      (by decide) (by decide) (by decide)).1).trans (by decide)⟩

/-! ## C12, C13: what the stuffing pass does to a slot -/

theorem setLength_gr (l3_side : III_side_info_t) (g c i j : Nat) (v : Int) :
    ((setLength l3_side g c v).gr i j).part2_3_length
      = if i = g ∧ j = c then v else (l3_side.gr i j).part2_3_length := by
  unfold setLength
  simp only
  split <;> rfl

/-- The inner loop leaves every slot that is at most 4095 at most 4095. -/
theorem chLoop_le (gr : Nat) (i j : Nat) (n : Nat) :
    ∀ (ch : Nat) (l3_side : III_side_info_t) (k : Int),
      (l3_side.gr i j).part2_3_length ≤ 4095 →
      ((ResvFrameEnd.chLoop gr n ch (l3_side, k)).1.gr i j).part2_3_length ≤ 4095 := by
  induction n with
  | zero => intro ch l3_side k h; exact h
  | succ n ih =>
    intro ch l3_side k h
    by_cases hk0 : k = 0
    · subst hk0; rw [chLoop_zero]; exact h
    · rw [chLoop_succ gr n ch l3_side k hk0]
      apply ih
      rw [setLength_gr]
      split <;> omega

theorem grLoop_le (stereo : Int) (i j : Nat) (n : Nat) :
    ∀ (gr : Nat) (st : III_side_info_t × Int),
      (st.1.gr i j).part2_3_length ≤ 4095 →
      ((ResvFrameEnd.grLoop stereo n gr st).1.gr i j).part2_3_length ≤ 4095 := by
  induction n with
  | zero => intro gr st h; exact h
  | succ n ih =>
    intro gr st h
    rw [ResvFrameEnd.grLoop]
    apply ih
    exact chLoop_le gr i j stereo.toNat 0 st.1 st.2 h

/-- The inner loop never makes the budget negative. -/
theorem chLoop_budget_nonneg (gr : Nat) (n : Nat) :
    ∀ (ch : Nat) (l3_side : III_side_info_t) (k : Int), 0 ≤ k →
      0 ≤ (ResvFrameEnd.chLoop gr n ch (l3_side, k)).2 := by
  induction n with
  | zero => intro ch l3_side k hk; exact hk
  | succ n ih =>
    intro ch l3_side k hk
    by_cases hk0 : k = 0
    · subst hk0; rw [chLoop_zero]
    · rw [chLoop_succ gr n ch l3_side k hk0]
      exact ih _ _ _ (by omega)

/-- With a budget that is not negative, the inner loop does not shorten a slot
that is at most 4095. -/
theorem chLoop_ge (gr : Nat) (i j : Nat) (orig : Int) (n : Nat) :
    ∀ (ch : Nat) (l3_side : III_side_info_t) (k : Int), 0 ≤ k →
      orig ≤ (l3_side.gr i j).part2_3_length →
      (l3_side.gr i j).part2_3_length ≤ 4095 →
      orig ≤ ((ResvFrameEnd.chLoop gr n ch (l3_side, k)).1.gr i j).part2_3_length := by
  induction n with
  | zero => intro ch l3_side k _ h _; exact h
  | succ n ih =>
    intro ch l3_side k hk h hle
    by_cases hk0 : k = 0
    · subst hk0; rw [chLoop_zero]; exact h
    · rw [chLoop_succ gr n ch l3_side k hk0]
      apply ih _ _ _ (by omega)
      · rw [setLength_gr]
        split
        · next heq => rw [heq.1, heq.2] at h hle; omega
        · exact h
      · rw [setLength_gr]
        split <;> omega

theorem grLoop_ge (stereo : Int) (i j : Nat) (orig : Int) (n : Nat) :
    ∀ (gr : Nat) (st : III_side_info_t × Int), 0 ≤ st.2 →
      orig ≤ (st.1.gr i j).part2_3_length →
      (st.1.gr i j).part2_3_length ≤ 4095 →
      orig ≤ ((ResvFrameEnd.grLoop stereo n gr st).1.gr i j).part2_3_length := by
  induction n with
  | zero => intro gr st _ h _; exact h
  | succ n ih =>
    intro gr st hk h hle
    rw [ResvFrameEnd.grLoop]
    apply ih
    · exact chLoop_budget_nonneg gr stereo.toNat 0 st.1 st.2 hk
    · exact chLoop_ge gr i j orig stereo.toNat 0 st.1 st.2 hk h hle
    · exact chLoop_le gr i j stereo.toNat 0 st.1 st.2 hle

/-- The stuffing pass, for any budget, leaves a slot that is at most 4095 at
most 4095. -/
theorem stuff_le (fr_ps : frame_params) (l3_side : III_side_info_t) (k : Int)
    (i j : Nat) (h : (l3_side.gr i j).part2_3_length ≤ 4095) :
    ((ResvFrameEnd.stuff fr_ps l3_side k).gr i j).part2_3_length ≤ 4095 := by
  by_cases hk : k = 0
  · subst hk; rw [stuff_zero]; exact h
  · by_cases hA : planA l3_side k
    · rw [stuff_planA fr_ps l3_side k hk hA, setLength_gr]
      unfold planA at hA
      split <;> omega
    · rw [stuff_planB fr_ps l3_side k hk hA]
      exact grLoop_le fr_ps.stereo i j _ 0 (l3_side, k) h

/-- The stuffing pass, for a budget that is not negative, does not shorten a
slot that is at most 4095. -/
theorem stuff_ge (fr_ps : frame_params) (l3_side : III_side_info_t) (k : Int) (hk0 : 0 ≤ k)
    (i j : Nat) (h : (l3_side.gr i j).part2_3_length ≤ 4095) :
    (l3_side.gr i j).part2_3_length
      ≤ ((ResvFrameEnd.stuff fr_ps l3_side k).gr i j).part2_3_length := by
  by_cases hk : k = 0
  · subst hk; rw [stuff_zero]
  · by_cases hA : planA l3_side k
    · rw [stuff_planA fr_ps l3_side k hk hA, setLength_gr]
      split
      · next heq => rw [heq.1, heq.2]; omega
      · exact le_refl _
    · rw [stuff_planB fr_ps l3_side k hk hA]
      exact grLoop_ge fr_ps.stereo i j _ _ 0 (l3_side, k) hk0 (le_refl _) h

/-- C12, as stated, fails for a negative occupancy on entry: the byte alignment
then yields a negative remainder, the stuffing budget is negative and plan a
subtracts it from slot (0,0).  Version 1, mono, 600 mean bits, capacity 1000:
from occupancy 0 the granules coded in 603 and 600 bits leave occupancy -3, and
ResvFrameEnd takes slot (0,0) from 603 to 600 (all slots at most 4095). -/
theorem C12_counterexample :
    ResvAdjustAll [(⟨⟨1⟩, 1⟩, ⟨603⟩, 600), (⟨⟨1⟩, 1⟩, ⟨600⟩, 600)] ⟨0, 1000⟩ = ⟨-3, 1000⟩ ∧
    stuffingBudget ⟨⟨1⟩, 1⟩ (sideInfo 0 0 603 0 600 0) 600 ⟨-3, 1000⟩ = -3 ∧
    ((ResvFrameEnd ⟨⟨1⟩, 1⟩ (sideInfo 0 0 603 0 600 0) 600 ⟨-3, 1000⟩).2.gr
      0 0).part2_3_length = 600 ∧
    ¬ (((sideInfo 0 0 603 0 600 0).gr 0 0).part2_3_length
      ≤ ((ResvFrameEnd ⟨⟨1⟩, 1⟩ (sideInfo 0 0 603 0 600 0) 600 ⟨-3, 1000⟩).2.gr
          0 0).part2_3_length) := by
  decide

/-- C12 (amended): for every ResvFrameEnd call in which every slot is at most
4095 on entry, no slot is shorter after the call than before it if and only if
the stuffing budget is not negative; the budget is not negative whenever
occupancy and capacity are not negative on entry. -/
theorem C12_stuffing_only_increases (fr_ps : frame_params) (l3_side : III_side_info_t)
    (mean_bits : Int) (s : ResvState)
    (hlen : ∀ g < 2, ∀ c < 2, (l3_side.gr g c).part2_3_length ≤ 4095) :
    ((∀ g < 2, ∀ c < 2,
        (l3_side.gr g c).part2_3_length
          ≤ ((ResvFrameEnd fr_ps l3_side mean_bits s).2.gr g c).part2_3_length)
      ↔ 0 ≤ stuffingBudget fr_ps l3_side mean_bits s) ∧
    (0 ≤ s.ResvSize → 0 ≤ s.ResvMax → 0 ≤ stuffingBudget fr_ps l3_side mean_bits s) := by
  refine ⟨?_, ?_⟩
  · rw [ResvFrameEnd_snd]
    generalize stuffingBudget fr_ps l3_side mean_bits s = k
    constructor
    · intro hall
      by_contra hneg
      have h00 := hlen 0 (by decide) 0 (by decide)
      have hA : planA l3_side k := by unfold planA; omega
      have h := hall 0 (by decide) 0 (by decide)
      rw [stuff_planA fr_ps l3_side k (by omega) hA, setLength_same] at h
      omega
    · intro hk g hg c hc
      exact stuff_ge fr_ps l3_side k hk g c (hlen g hg c hc)
  · intro hocc hcap
    unfold stuffingBudget
    rw [ResvFrameEnd_ResvSize, clamp_fst, tmod_eight]
    have hp : 0 ≤ parityFix fr_ps.stereo mean_bits := by
      unfold parityFix; split <;> decide
    split_ifs <;> omega

/-- C12 (amended) at the spec's scenario 5 on a version 1 mono frame: occupancy
1050, capacity 1000, slots at 4090 and 4000; no slot is shorter afterwards. -/
theorem C12_stuffing_only_increases_witness :
    (∀ g < 2, ∀ c < 2,
      ((sideInfo 0 0 4090 0 4000 0).gr g c).part2_3_length
        ≤ ((ResvFrameEnd ⟨⟨1⟩, 1⟩ (sideInfo 0 0 4090 0 4000 0) 0 ⟨1050, 1000⟩).2.gr
            g c).part2_3_length) ∧
    ((ResvFrameEnd ⟨⟨1⟩, 1⟩ (sideInfo 0 0 4090 0 4000 0) 0 ⟨1050, 1000⟩).2.gr
      1 0).part2_3_length = 4045 :=
  ⟨(C12_stuffing_only_increases ⟨⟨1⟩, 1⟩ (sideInfo 0 0 4090 0 4000 0) 0 ⟨1050, 1000⟩
      (by decide)).1.2 (by decide),
    by decide⟩

/-- C13: for every ResvFrameEnd call in which every slot is at most 4095 on
entry, every slot is at most 4095 on exit, whichever plan is taken and whatever
the occupancy, the capacity and the other arguments are. -/
theorem C13_stuffing_keeps_ceiling (fr_ps : frame_params) (l3_side : III_side_info_t)
    (mean_bits : Int) (s : ResvState)
    (hlen : ∀ g < 2, ∀ c < 2, (l3_side.gr g c).part2_3_length ≤ 4095) :
    ∀ g < 2, ∀ c < 2,
      ((ResvFrameEnd fr_ps l3_side mean_bits s).2.gr g c).part2_3_length ≤ 4095 := by
  intro g hg c hc
  rw [ResvFrameEnd_snd]
  exact stuff_le fr_ps l3_side _ g c (hlen g hg c hc)

/-- C13 at two concrete calls: plan a (3800 + 203 = 4003) and plan b (slots at
4090 and 4000 with a budget of 200 end at 4095 and 4095, 100 bits drained). -/
theorem C13_stuffing_keeps_ceiling_witness :
    ((ResvFrameEnd ⟨⟨1⟩, 1⟩ (sideInfo 0 0 3800 0 3000 0) 0 ⟨1203, 1000⟩).2.gr
      0 0).part2_3_length ≤ 4095 ∧
    ((ResvFrameEnd ⟨⟨1⟩, 1⟩ (sideInfo 0 0 4090 0 4000 0) 0 ⟨1200, 1000⟩).2.gr
      1 0).part2_3_length ≤ 4095 ∧
    ((ResvFrameEnd ⟨⟨1⟩, 1⟩ (sideInfo 0 0 4090 0 4000 0) 0 ⟨1200, 1000⟩).2.gr
      1 0).part2_3_length = 4095 ∧
    (ResvFrameEnd ⟨⟨1⟩, 1⟩ (sideInfo 0 0 4090 0 4000 0) 0 ⟨1200, 1000⟩).2.resvDrain = 100 :=
  ⟨C13_stuffing_keeps_ceiling ⟨⟨1⟩, 1⟩ (sideInfo 0 0 3800 0 3000 0) 0 ⟨1203, 1000⟩
      (by decide) 0 (by decide) 0 (by decide),
    C13_stuffing_keeps_ceiling ⟨⟨1⟩, 1⟩ (sideInfo 0 0 4090 0 4000 0) 0 ⟨1200, 1000⟩
      (by decide) 1 (by decide) 0 (by decide),
    by decide, by decide⟩

/-! ## C14: the occupancy left by ResvFrameEnd -/

/-- C14: for every ResvFrameEnd call entered with occupancy and capacity not
negative, with `p = 1` if `stereo == 2` and `mean_bits` is odd and `p = 0`
otherwise, the occupancy on exit is the largest multiple of 8 that does not
exceed `min(occupancy + p, capacity)`, the capacity is unchanged, and the
stuffing budget, `occupancy + p` minus the occupancy on exit, is not negative. -/
theorem C14_ResvFrameEnd_occupancy (fr_ps : frame_params) (l3_side : III_side_info_t)
    (mean_bits : Int) (s : ResvState) (hocc : 0 ≤ s.ResvSize) (hcap : 0 ≤ s.ResvMax) :
    (ResvFrameEnd fr_ps l3_side mean_bits s).1.ResvSize
        = 8 * (min (s.ResvSize + (if fr_ps.stereo = 2 ∧ mean_bits % 2 = 1 then 1 else 0))
            s.ResvMax / 8) ∧
    (8 ∣ (ResvFrameEnd fr_ps l3_side mean_bits s).1.ResvSize ∧
      (ResvFrameEnd fr_ps l3_side mean_bits s).1.ResvSize
        ≤ min (s.ResvSize + (if fr_ps.stereo = 2 ∧ mean_bits % 2 = 1 then 1 else 0))
            s.ResvMax ∧
      ∀ m : Int, 8 ∣ m →
        m ≤ min (s.ResvSize + (if fr_ps.stereo = 2 ∧ mean_bits % 2 = 1 then 1 else 0))
            s.ResvMax →
        m ≤ (ResvFrameEnd fr_ps l3_side mean_bits s).1.ResvSize) ∧
    (ResvFrameEnd fr_ps l3_side mean_bits s).1.ResvMax = s.ResvMax ∧
    0 ≤ s.ResvSize + (if fr_ps.stereo = 2 ∧ mean_bits % 2 = 1 then 1 else 0)
        - (ResvFrameEnd fr_ps l3_side mean_bits s).1.ResvSize ∧
    (ResvFrameEnd.clamp fr_ps.stereo mean_bits s).2
      = s.ResvSize + (if fr_ps.stereo = 2 ∧ mean_bits % 2 = 1 then 1 else 0)
        - (ResvFrameEnd fr_ps l3_side mean_bits s).1.ResvSize := by
  have hp : parityFix fr_ps.stereo mean_bits
      = if fr_ps.stereo = 2 ∧ mean_bits % 2 = 1 then 1 else 0 := by
    unfold parityFix
    split_ifs <;> first | rfl | omega
  rw [ResvFrameEnd_ResvMax, clamp_snd, ResvFrameEnd_ResvSize, clamp_fst, hp, tmod_eight]
  refine ⟨?_, ⟨?_, ?_, ?_⟩, rfl, ?_, rfl⟩
  · split_ifs <;> omega
  · split_ifs <;> omega
  · split_ifs <;> omega
  · intro m hm hle
    split_ifs at hle ⊢ <;> omega
  · split_ifs <;> omega

/-- C14 at two concrete calls: stereo with 601 mean bits, occupancy 1203 and
capacity 1000 leaves 1000 (budget 204); mono with occupancy 997 under
capacity 1000 leaves 992 (budget 5). -/
theorem C14_ResvFrameEnd_occupancy_witness :
    (ResvFrameEnd ⟨⟨1⟩, 2⟩ (sideInfo 0 0 0 0 0 0) 601 ⟨1203, 1000⟩).1 = ⟨1000, 1000⟩ ∧
    (ResvFrameEnd.clamp 2 601 ⟨1203, 1000⟩).2 = 204 ∧
    (ResvFrameEnd ⟨⟨1⟩, 1⟩ (sideInfo 0 0 0 0 0 0) 601 ⟨997, 1000⟩).1.ResvSize = 992 :=
  ⟨by decide,
    ((C14_ResvFrameEnd_occupancy ⟨⟨1⟩, 2⟩ (sideInfo 0 0 0 0 0 0) 601 ⟨1203, 1000⟩
      (by decide) (by decide)).2.2.2.2).trans (by decide),
    ((C14_ResvFrameEnd_occupancy ⟨⟨1⟩, 1⟩ (sideInfo 0 0 0 0 0 0) 601 ⟨997, 1000⟩
      (by decide) (by decide)).1).trans (by decide)⟩

/-! ## C15: the extra allowance of ResvMaxBits -/

/-- The code's `add_bits` is the extra allowance of the spec, for every state. -/
theorem add_bits_eq_extraAllowance (more_bits : Int) (s : ResvState) :
    ResvMaxBits.add_bits more_bits s = extraAllowance more_bits s.ResvSize s.ResvMax := by
  unfold ResvMaxBits.add_bits extraAllowance
  simp only
  generalize (s.ResvSize * 6).tdiv 10 = frac
  generalize (s.ResvMax * 8).tdiv 10 = c
  split_ifs <;> omega

/-- C15: for every state with capacity not 0 and every value of `more_bits`,
the `add_bits` that ResvMaxBits computes is
`max(e0, occupancy - (capacity * 8) / 10)` with
`e0 = min(more_bits, (occupancy * 6) / 10)` if `more_bits > 100` and 0
otherwise; ResvMaxBits returns `min(4095, min(base, 4095) + add_bits)` with
`base = mean_bits / stereo`, and `add_bits` is at least
`occupancy - (capacity * 8) / 10`. -/
theorem C15_ResvMaxBits_extra (fr_ps : frame_params) (more_bits mean_bits : Int)
    (s : ResvState) (hcap : s.ResvMax ≠ 0) :
    ResvMaxBits.add_bits more_bits s
        = max (if more_bits > 100 then min more_bits ((s.ResvSize * 6).tdiv 10) else 0)
            (s.ResvSize - (s.ResvMax * 8).tdiv 10) ∧
    ResvMaxBits.add_bits more_bits s = extraAllowance more_bits s.ResvSize s.ResvMax ∧
    ResvMaxBits fr_ps more_bits mean_bits s
        = min 4095 (min (mean_bits.tdiv fr_ps.stereo) 4095
            + extraAllowance more_bits s.ResvSize s.ResvMax) ∧
    s.ResvSize - (s.ResvMax * 8).tdiv 10 ≤ extraAllowance more_bits s.ResvSize s.ResvMax := by
  refine ⟨add_bits_eq_extraAllowance more_bits s, add_bits_eq_extraAllowance more_bits s,
    ?_, ?_⟩
  · unfold ResvMaxBits
    simp only [hcap, if_false]
    rw [add_bits_eq_extraAllowance]
    split_ifs <;> omega
  · unfold extraAllowance
    simp only
    omega

/-- C15 at a concrete call: occupancy 900 over 80% of capacity 1000, mono, 1000
mean bits: with `more_bits` 50 the extra is 900 - 800 = 100, with `more_bits`
300 it is min(300, 540) = 300, and the allowances are 1100 and 1300. -/
theorem C15_ResvMaxBits_extra_witness :
    ResvMaxBits.add_bits 50 ⟨900, 1000⟩ = 100 ∧
    ResvMaxBits.add_bits 300 ⟨900, 1000⟩ = 300 ∧
    ResvMaxBits ⟨⟨1⟩, 1⟩ 50 1000 ⟨900, 1000⟩ = 1100 ∧
    ResvMaxBits ⟨⟨1⟩, 1⟩ 300 1000 ⟨900, 1000⟩ = 1300 :=
  ⟨((C15_ResvMaxBits_extra ⟨⟨1⟩, 1⟩ 50 1000 ⟨900, 1000⟩ (by decide)).1).trans (by decide),
    ((C15_ResvMaxBits_extra ⟨⟨1⟩, 1⟩ 300 1000 ⟨900, 1000⟩ (by decide)).1).trans (by decide),
    ((C15_ResvMaxBits_extra ⟨⟨1⟩, 1⟩ 50 1000 ⟨900, 1000⟩ (by decide)).2.2.1).trans
      (by decide),
    ((C15_ResvMaxBits_extra ⟨⟨1⟩, 1⟩ 300 1000 ⟨900, 1000⟩ (by decide)).2.2.1).trans
      (by decide)⟩

/-! ## C16: the parity fix against the rounding of `mean_bits / 2` -/

theorem ResvAdjust_ResvSize (fr_ps : frame_params) (gi : gr_info) (mean_bits : Int)
    (s : ResvState) :
    (ResvAdjust fr_ps gi mean_bits s).ResvSize
      = s.ResvSize + (mean_bits.tdiv fr_ps.stereo - gi.part2_3_length) := rfl

theorem parityFix_two (mean_bits : Int) :
    parityFix 2 mean_bits = if mean_bits % 2 = 1 then 1 else 0 := by
  unfold parityFix
  split_ifs <;> first | rfl | omega

/-- What one frame of stereo ResvAdjust calls and the parity fix add up to: the
frame's `mode_gr * mean_bits` less the coded lengths, and one bit less for
version 1 with odd `mean_bits`. -/
theorem parityFix_account (version : Int) (l3_side : III_side_info_t) (mean_bits : Int)
    (s : ResvState) (hmean : 0 ≤ mean_bits) :
    (ResvAdjustAll (frameAdjusts ⟨⟨version⟩, 2⟩ l3_side mean_bits) s).ResvSize
        + parityFix 2 mean_bits - s.ResvSize
      = mode_gr version * mean_bits
        - (lengthsAt l3_side (frameSlots ⟨⟨version⟩, 2⟩)).sum
        - (if version = 1 ∧ mean_bits % 2 = 1 then 1 else 0) := by
  have hdiv := tdiv_by_nonneg mean_bits 2 (by decide)
  rw [if_pos hmean] at hdiv
  rw [parityFix_two]
  by_cases hv : version = 1
  · subst hv
    have hslots : frameSlots ⟨⟨1⟩, 2⟩ = [(0, 0), (0, 1), (1, 0), (1, 1)] := by decide
    have hm : mode_gr 1 = 2 := rfl
    simp only [frameAdjusts, hslots, ResvAdjustAll, List.map_cons, List.map_nil,
      List.foldl_cons, List.foldl_nil, ResvAdjust_ResvSize, lengthsAt, List.sum_cons,
      List.sum_nil, hm, hdiv, true_and]
    split_ifs <;> omega
  · have hslots : frameSlots ⟨⟨version⟩, 2⟩ = [(0, 0), (0, 1)] := by
      simp [frameSlots, mode_gr, hv, List.range_succ]
    have hm : mode_gr version = 1 := by simp [mode_gr, hv]
    simp only [frameAdjusts, hslots, ResvAdjustAll, List.map_cons, List.map_nil,
      List.foldl_cons, List.foldl_nil, ResvAdjust_ResvSize, lengthsAt, List.sum_cons,
      List.sum_nil, hm, hdiv, hv, false_and, if_false]
    split_ifs <;> omega

/-- C16, the code at a failing input: version 1, stereo, `mean_bits` 601, four
slots coded in 300 bits each, occupancy 0.  The four ResvAdjust calls add
4 * (601 / 2) - 1200 = 0 and the parity fix adds 1, so the occupancy before the
clamp is 1 (the clamp then moves that bit to the stuffing), whereas
`mode_gr * mean_bits` minus the coded lengths is 2 * 601 - 1200 = 2. -/
theorem C16_parity_fix_V1_odd :
    frameAdjusts ⟨⟨1⟩, 2⟩ (sideInfo 0 0 300 300 300 300) 601
      = [(⟨⟨1⟩, 2⟩, ⟨300⟩, 601), (⟨⟨1⟩, 2⟩, ⟨300⟩, 601), (⟨⟨1⟩, 2⟩, ⟨300⟩, 601),
          (⟨⟨1⟩, 2⟩, ⟨300⟩, 601)] ∧
    ResvAdjustAll (frameAdjusts ⟨⟨1⟩, 2⟩ (sideInfo 0 0 300 300 300 300) 601) ⟨0, 4088⟩
      = ⟨0, 4088⟩ ∧
    (ResvFrameEnd.clamp 2 601 ⟨0, 4088⟩).1 + (ResvFrameEnd.clamp 2 601 ⟨0, 4088⟩).2 = 1 ∧
    (ResvAdjustAll (frameAdjusts ⟨⟨1⟩, 2⟩ (sideInfo 0 0 300 300 300 300) 601)
        ⟨0, 4088⟩).ResvSize + parityFix 2 601 - 0 = 1 ∧
    mode_gr 1 * 601
      - (lengthsAt (sideInfo 0 0 300 300 300 300) (frameSlots ⟨⟨1⟩, 2⟩)).sum = 2 := by
  decide

/-! ## C17: the allowance never exceeds what the reservoir holds -/

/-- With occupancy and capacity not negative, `add_bits` is at most the
occupancy. -/
theorem add_bits_le_ResvSize (more_bits : Int) (s : ResvState)
    (hocc : 0 ≤ s.ResvSize) (hcap : 0 ≤ s.ResvMax) :
    ResvMaxBits.add_bits more_bits s ≤ s.ResvSize := by
  unfold ResvMaxBits.add_bits
  simp only
  rw [tdiv_by_nonneg (s.ResvSize * 6) 10 (by decide),
    tdiv_by_nonneg (s.ResvMax * 8) 10 (by decide)]
  split_ifs <;> omega

/-- With occupancy and capacity not negative, the allowance is at most
`mean_bits / stereo` plus the occupancy. -/
theorem ResvMaxBits_le_base_add (fr_ps : frame_params) (more_bits mean_bits : Int)
    (s : ResvState) (hocc : 0 ≤ s.ResvSize) (hcap : 0 ≤ s.ResvMax) :
    ResvMaxBits fr_ps more_bits mean_bits s ≤ mean_bits.tdiv fr_ps.stereo + s.ResvSize := by
  have hadd := add_bits_le_ResvSize more_bits s hocc hcap
  unfold ResvMaxBits
  simp only
  split_ifs <;> omega

/-- A granule coded within its allowance leaves the occupancy not negative. -/
theorem ResvAdjust_nonneg (fr_ps : frame_params) (more_bits mean_bits : Int)
    (s : ResvState) (gi : gr_info) (hocc : 0 ≤ s.ResvSize) (hcap : 0 ≤ s.ResvMax)
    (hgi : gi.part2_3_length ≤ ResvMaxBits fr_ps more_bits mean_bits s) :
    0 ≤ (ResvAdjust fr_ps gi mean_bits s).ResvSize := by
  have h := ResvMaxBits_le_base_add fr_ps more_bits mean_bits s hocc hcap
  rw [ResvAdjust_ResvSize]
  omega

/-- C17: for every state with occupancy and capacity not negative, ResvMaxBits
returns at most `mean_bits / stereo` plus the occupancy; so when the granule's
`part2_3_length` does not exceed the returned allowance, the occupancy is still
not negative after ResvAdjust. -/
theorem C17_allowance_within_reservoir (fr_ps : frame_params) (more_bits mean_bits : Int)
    (s : ResvState) (hocc : 0 ≤ s.ResvSize) (hcap : 0 ≤ s.ResvMax) :
    ResvMaxBits fr_ps more_bits mean_bits s ≤ mean_bits.tdiv fr_ps.stereo + s.ResvSize ∧
    ∀ gi : gr_info, gi.part2_3_length ≤ ResvMaxBits fr_ps more_bits mean_bits s →
      0 ≤ (ResvAdjust fr_ps gi mean_bits s).ResvSize :=
  ⟨ResvMaxBits_le_base_add fr_ps more_bits mean_bits s hocc hcap,
    fun gi hgi => ResvAdjust_nonneg fr_ps more_bits mean_bits s gi hocc hcap hgi⟩

/-- C17 at a concrete call: stereo, 3001 mean bits, occupancy 900 and capacity
1000, `more_bits` 2000: the allowance is 1500 + 540 = 2040, at most 1500 + 900,
and a granule coded in exactly 2040 bits leaves occupancy 360. -/
theorem C17_allowance_within_reservoir_witness :
    ResvMaxBits ⟨⟨1⟩, 2⟩ 2000 3001 ⟨900, 1000⟩ = 2040 ∧
    ResvMaxBits ⟨⟨1⟩, 2⟩ 2000 3001 ⟨900, 1000⟩ ≤ (3001 : Int).tdiv 2 + 900 ∧
    ResvAdjust ⟨⟨1⟩, 2⟩ ⟨2040⟩ 3001 ⟨900, 1000⟩ = ⟨360, 1000⟩ ∧
    0 ≤ (ResvAdjust ⟨⟨1⟩, 2⟩ ⟨2040⟩ 3001 ⟨900, 1000⟩).ResvSize :=
  ⟨by decide,
    (C17_allowance_within_reservoir ⟨⟨1⟩, 2⟩ 2000 3001 ⟨900, 1000⟩ (by decide)
      (by decide)).1,
    by decide,
    (C17_allowance_within_reservoir ⟨⟨1⟩, 2⟩ 2000 3001 ⟨900, 1000⟩ (by decide)
      (by decide)).2 ⟨2040⟩ (by decide)⟩

/-! ## C18: the invariant of the frame protocol -/

theorem runSlots_ResvMax (fr_ps : frame_params) (mean_bits : Int)
    (slots : List (Int × gr_info)) :
    ∀ s : ResvState, (runSlots fr_ps mean_bits s slots).ResvMax = s.ResvMax := by
  induction slots with
  | nil => intro s; rfl
  | cons slot rest ih =>
    intro s
    show (runSlots fr_ps mean_bits (ResvAdjust fr_ps slot.2 mean_bits s) rest).ResvMax = _
    rw [ih]
    rfl

/-- A granule loop in which the coder respects its allowances keeps the
occupancy not negative. -/
theorem runSlots_nonneg (fr_ps : frame_params) (mean_bits : Int)
    (slots : List (Int × gr_info)) :
    ∀ s : ResvState, 0 ≤ s.ResvSize → 0 ≤ s.ResvMax →
      slotsRespect fr_ps mean_bits s slots →
      0 ≤ (runSlots fr_ps mean_bits s slots).ResvSize := by
  induction slots with
  | nil => intro s hocc _ _; exact hocc
  | cons slot rest ih =>
    intro s hocc hcap hok
    show 0 ≤ (runSlots fr_ps mean_bits (ResvAdjust fr_ps slot.2 mean_bits s) rest).ResvSize
    exact ih _ (ResvAdjust_nonneg fr_ps slot.1 mean_bits s slot.2 hocc hcap hok.1) hcap hok.2

/-- ResvFrameEnd entered with occupancy and capacity not negative leaves
`0 ≤ ResvSize ≤ ResvMax` and `ResvSize` a multiple of 8. -/
theorem ResvFrameEnd_inv (fr_ps : frame_params) (l3_side : III_side_info_t)
    (mean_bits : Int) (s : ResvState) (hocc : 0 ≤ s.ResvSize) (hcap : 0 ≤ s.ResvMax) :
    0 ≤ (ResvFrameEnd fr_ps l3_side mean_bits s).1.ResvSize ∧
    (ResvFrameEnd fr_ps l3_side mean_bits s).1.ResvSize
      ≤ (ResvFrameEnd fr_ps l3_side mean_bits s).1.ResvMax ∧
    (ResvFrameEnd fr_ps l3_side mean_bits s).1.ResvSize.tmod 8 = 0 ∧
    (ResvFrameEnd fr_ps l3_side mean_bits s).1.ResvSize.tdiv 8 * 8
      = (ResvFrameEnd fr_ps l3_side mean_bits s).1.ResvSize := by
  have hp : 0 ≤ parityFix fr_ps.stereo mean_bits := by
    unfold parityFix; split <;> decide
  rw [ResvFrameEnd_ResvMax, ResvFrameEnd_ResvSize, clamp_fst]
  generalize parityFix fr_ps.stereo mean_bits = p at hp ⊢
  rw [tmod_eight (min (s.ResvSize + p) s.ResvMax), if_pos (by omega)]
  rw [tmod_eight, tdiv_by_nonneg _ 8 (by decide)]
  refine ⟨?_, ?_, ?_, ?_⟩ <;> (try split_ifs) <;> omega

/-- The invariant of the protocol from any state with occupancy not negative:
every ResvFrameBegin returns and every ResvFrameEnd leaves the invariant. -/
theorem runFrames_inv (frames : List Frame) :
    ∀ s : ResvState, 0 ≤ s.ResvSize → framesOk frames s →
      ∃ trace, runFrames frames s = some trace ∧ trace.length = frames.length ∧
        ∀ t ∈ trace, 0 ≤ t.ResvSize ∧ t.ResvSize ≤ t.ResvMax ∧ t.ResvSize.tmod 8 = 0 ∧
          t.ResvSize.tdiv 8 * 8 = t.ResvSize := by
  induction frames with
  | nil => intro s _ _; exact ⟨[], rfl, rfl, fun t ht => absurd ht (List.not_mem_nil t)⟩
  | cons f rest ih =>
    intro s hocc hok
    obtain ⟨⟨hoff, hslots⟩, hrest⟩ := hok
    have hbegin := ResvFrameBegin_returned f.fr_ps f.l3_side f.mean_bits f.frameLength s hoff
    have hlim : 0 ≤ resvLimit f.fr_ps.header.version := by
      unfold resvLimit; split <;> decide
    rw [hbegin] at hslots
    simp only [Outcome.state] at hslots
    have hrun : runFrame f s = Outcome.returned
        (ResvFrameEnd f.fr_ps f.l3_side f.mean_bits
          (runSlots f.fr_ps f.mean_bits
            ⟨s.ResvSize, min (resvLimit f.fr_ps.header.version) (max 0 (7680 - f.frameLength))⟩
            f.slots)).1 := by
      unfold runFrame
      rw [hbegin]
    have hcap : 0 ≤ min (resvLimit f.fr_ps.header.version) (max 0 (7680 - f.frameLength)) := by
      omega
    have hmid := runSlots_nonneg f.fr_ps f.mean_bits f.slots
      ⟨s.ResvSize, min (resvLimit f.fr_ps.header.version) (max 0 (7680 - f.frameLength))⟩
      hocc hcap hslots
    have hmidcap := runSlots_ResvMax f.fr_ps f.mean_bits f.slots
      ⟨s.ResvSize, min (resvLimit f.fr_ps.header.version) (max 0 (7680 - f.frameLength))⟩
    have hend := ResvFrameEnd_inv f.fr_ps f.l3_side f.mean_bits _ hmid
      (by rw [hmidcap]; exact hcap)
    generalize (ResvFrameEnd f.fr_ps f.l3_side f.mean_bits
      (runSlots f.fr_ps f.mean_bits
        ⟨s.ResvSize, min (resvLimit f.fr_ps.header.version) (max 0 (7680 - f.frameLength))⟩
        f.slots)).1 = s1 at hrun hend
    rw [hrun] at hrest
    simp only [Outcome.state] at hrest
    obtain ⟨trace, htrace, hlen, hall⟩ := ih s1 hend.1 hrest
    refine ⟨s1 :: trace, ?_, ?_, ?_⟩
    · show (match runFrame f s with
        | Outcome.aborted _ => none
        | Outcome.returned s1 => (runFrames rest s1).map fun trace => s1 :: trace) = _
      rw [hrun]
      simp only [htrace, Option.map_some']
    · simp only [List.length_cons, hlen]
    · intro t ht
      rcases List.mem_cons.1 ht with ht | ht
      · rw [ht]; exact hend
      · exact hall t ht

/-- C18: from the initial statics (occupancy 0, capacity 0), for every sequence
of frames in which each ResvFrameBegin is called with an offset equal to the
current occupancy and each granule is coded within the allowance ResvMaxBits
returned for it, every ResvFrameBegin returns (the run completes, with one
state per frame), and after every ResvFrameEnd `0 ≤ ResvSize ≤ ResvMax` and
`ResvSize` is a multiple of 8, so the offset field `ResvSize / 8` of the next
frame reproduces it. -/
theorem C18_protocol_invariant (frames : List Frame)
    (hok : framesOk frames ResvState.init) :
    ∃ trace, runFrames frames ResvState.init = some trace ∧
      trace.length = frames.length ∧
      ∀ t ∈ trace, 0 ≤ t.ResvSize ∧ t.ResvSize ≤ t.ResvMax ∧ t.ResvSize.tmod 8 = 0 ∧
        t.ResvSize.tdiv 8 * 8 = t.ResvSize :=
  runFrames_inv frames ResvState.init (le_refl _) hok

/-- C18 at a concrete run of two frames: the first banks 1200 bits and is
clamped to the capacity 1008, the second draws 500 bits and is aligned from 508
down to 504. -/
theorem C18_protocol_invariant_witness :
    runFrames [sampleFrame1, sampleFrame2] ResvState.init
      = some [⟨1008, 1008⟩, ⟨504, 1008⟩] ∧
    ∃ trace, runFrames [sampleFrame1, sampleFrame2] ResvState.init = some trace ∧
      trace.length = [sampleFrame1, sampleFrame2].length ∧
      ∀ t ∈ trace, 0 ≤ t.ResvSize ∧ t.ResvSize ≤ t.ResvMax ∧ t.ResvSize.tmod 8 = 0 ∧
        t.ResvSize.tdiv 8 * 8 = t.ResvSize :=
  ⟨by decide,
    C18_protocol_invariant [sampleFrame1, sampleFrame2]
      ⟨⟨by decide, by decide, by decide, trivial⟩,
        ⟨by decide, by decide, by decide, trivial⟩, trivial⟩⟩

end Reservoir
